import Mathlib

/-!
Verification of the moly-studio multi-provider orchestration and persistence
slice: a shallow embedding of the Rust sources
(`moly-shell/src/apps/chat.rs`, `moly-shell/src/data/providers_manager.rs`,
`moly-data/src/chats.rs`, `moly-data/src/preferences.rs`,
`apps/moly-settings/src/screen/mod.rs`) together with theorems about the
embedded definitions.

Conventions of the embedding:
- Rust `String` is Lean `String`; Rust byte-indexed slicing is modelled on the
  underlying character list with explicit UTF-8 byte widths (`Char.utf8Size`),
  so that a slice at a non-character-boundary byte index - a Rust panic - is
  an explicit `Option.none`.
- `HashMap` is modelled as an association list with replace-on-insert
  semantics; properties that depend on iteration order are stated up to
  multiset equality.
- The file system is a map from file name to the serialized (stored) form of
  the data; JSON encode/decode between a value and its stored form is the
  identity on the stored structure.
- Fallible operations (Rust panics) return `Option`; `none` is a panic.
- Types owned by the external moly-kit crate (`BotId`, `Bot`, `Message`,
  `EntityId`, the chat controller) are modelled from the specification's
  description of them, as noted on each definition.
-/

namespace Moly

/-! ## Byte-level string helpers

Rust `str` indexing is by bytes and panics when an index is not a character
boundary.  We model a string's bytes through the UTF-8 widths of its
characters. -/
/-- Total UTF-8 byte length of a character list (Rust `str::len`). -/
def byteLen (cs : List Char) : Nat :=
  (cs.map Char.utf8Size).sum

/-- Rust `&s[..n]`: the characters occupying exactly the first `n` bytes, or
`none` when `n` is not a character boundary (a Rust panic). -/
def takeBytes (n : Nat) (cs : List Char) : Option (List Char) :=
  if n = 0 then
    some []
  else
    match cs with
    | [] => none
    | c :: rest =>
      if c.utf8Size ≤ n then
        (takeBytes (n - c.utf8Size) rest).map (fun l => c :: l)
      else
        none

/-- Rust `&s[n..]`: the characters after the first `n` bytes, or `none` when
`n` is not a character boundary (a Rust panic). -/
def dropBytes (n : Nat) (cs : List Char) : Option (List Char) :=
  if n = 0 then
    some cs
  else
    match cs with
    | [] => none
    | c :: rest =>
      if c.utf8Size ≤ n then
        dropBytes (n - c.utf8Size) rest
      else
        none

/-- Rust `str::trim` on a character list: drop whitespace from both ends. -/
def rustTrim (cs : List Char) : List Char :=
  ((cs.dropWhile Char.isWhitespace).reverse.dropWhile Char.isWhitespace).reverse

/-- Rust `str::split_once(sep)`: the parts before and after the first
occurrence of `sep`, or `none` when `sep` does not occur. -/
def splitOnceChar (sep : Char) (cs : List Char) : Option (List Char × List Char) :=
  match cs with
  | [] => none
  | c :: rest =>
    if c = sep then
      some ([], rest)
    else
      (splitOnceChar sep rest).map (fun p => (c :: p.1, p.2))

/-- Rust `"…".parse::<usize>()`: an optional leading `+` then one or more
ASCII digits. -/
def parseUsize (cs : List Char) : Option Nat :=
  let digits := match cs with
    | '+' :: rest => rest
    | l => l
  if digits.isEmpty ∨ ¬ digits.all Char.isDigit then
    none
  else
    some (digits.foldl (fun acc c => acc * 10 + (c.toNat - 48)) 0)

/-- Rust `str::contains(needle)`: substring containment, on character lists. -/
def strContains (hay needle : String) : Bool :=
  (hay.data.tails.any (fun t => needle.data.isPrefixOf t))

/-- Rust `str::trim_end_matches('/')`. -/
def trimEndSlashes (s : String) : String :=
  String.mk (s.data.reverse.dropWhile (fun c => c = '/')).reverse

/-- Boolean equality of two lists viewed as sets (the `HashSet` comparison
`old_set != new_set` in `ChatApp::maybe_configure_providers`). -/
def listSetEq (a b : List String) : Bool :=
  a.all (fun x => b.contains x) && b.all (fun x => a.contains x)

/-! ## Data model: bots, providers, preferences

`BotId` and `Bot` belong to the external moly-kit crate.  Modelled from the
spec: a bot id is "a composite key encoding model-name-length + model-name +
`'@'` + provider-url-or-id"; `BotId::id()` returns the model-name part and
`BotId::provider()` the provider part. -/
/-- Modelled from the spec: moly-kit `BotId`, held as its two components; its
string form is length-prefixed to disambiguate model names containing `@`. -/
structure BotId where
  id : String
  provider : String
  deriving DecidableEq, Repr

/-- Modelled from the spec: `BotId::as_str()`, the persisted composite form
`<name-byte-length>;<model-name>@<provider>`. -/
def BotId.asStr (b : BotId) : String :=
  toString (byteLen b.id.data) ++ ";" ++ b.id ++ "@" ++ b.provider

/-- Modelled from the spec: moly-kit `Bot` (model descriptor); the avatar
image reference is irrelevant to every claim and omitted. -/
structure Bot where
  id : BotId
  name : String
  deriving DecidableEq, Repr

/-- An OpenAI-compatible HTTP client as configured by
`ProvidersManager::configure_providers`: base URL plus API key.  (The real
`OpenAiClient` is external; only its configuration data matters here.) -/
structure OpenAiClient where
  url : String
  key : String
  deriving DecidableEq, Repr

/-- `ProviderPreferences` (moly-shell/src/data/providers.rs).  UI-only fields
(`provider_type`, `models`, `system_prompt`, `tools_enabled`) are omitted:
no embedded operation reads them. -/
structure ProviderPreferences where
  id : String
  name : String
  url : String
  api_key : Option String
  enabled : Bool
  was_customly_added : Bool
  deriving DecidableEq, Repr

/-- `ProviderPreferences::has_api_key`. -/
def ProviderPreferences.has_api_key (p : ProviderPreferences) : Bool :=
  p.api_key.elim false (fun k => !k.isEmpty)

/-- `Preferences` (moly-data/src/preferences.rs), restricted to the fields
the orchestrator and resolver read (`dark_mode`, `sidebar_expanded`,
`current_view` are pure UI state). -/
structure Preferences where
  providers_preferences : List ProviderPreferences
  current_chat_model : Option String
  deriving DecidableEq, Repr

/-- `Preferences::get_enabled_providers`: enabled providers holding an API
key. -/
def Preferences.get_enabled_providers (p : Preferences) : List ProviderPreferences :=
  p.providers_preferences.filter (fun pr => pr.enabled && pr.has_api_key)

/-- `Preferences::set_current_chat_model` (the synchronous `save()` to disk
writes the whole struct; the preference store's durable content is the
struct itself in this model). -/
def Preferences.set_current_chat_model (p : Preferences) (model : Option String) : Preferences :=
  { p with current_chat_model := model }

/-! ## ProvidersManager (moly-shell/src/data/providers_manager.rs) -/
/-- Insert into an association list with `HashMap::insert` semantics:
replace the value at an existing key, otherwise add the binding. -/
def assocInsert {α : Type} [BEq α] {β : Type} (l : List (α × β)) (k : α) (v : β) :
    List (α × β) :=
  match l with
  | [] => [(k, v)]
  | e :: rest => if e.1 == k then (e.1, v) :: rest else e :: assocInsert rest k v

/-- Lookup in an association list (`HashMap::get`). -/
def assocLookup {α : Type} [BEq α] {β : Type} (l : List (α × β)) (k : α) : Option β :=
  (l.find? (fun e => e.1 == k)).map (fun e => e.2)

/-- `ProvidersManager`: per-provider clients, per-provider bot lists, the
flattened combined list, and the active provider id.  Both hash maps are
association lists here; order-sensitive statements are made up to multiset. -/
structure ProvidersManager where
  clients : List (String × OpenAiClient)
  provider_bots : List (String × List Bot)
  all_bots : List Bot
  active_provider_id : Option String
  deriving DecidableEq, Repr

namespace ProvidersManager

/-- `ProvidersManager::new`. -/
def new : ProvidersManager :=
  { clients := [], provider_bots := [], all_bots := [], active_provider_id := none }

/-- Loop body of `ProvidersManager::configure_providers`: build a client for
a provider whose trimmed API key is non-empty (`set_key` on such a key
succeeds), setting the provider as active when none is active yet. -/
def configureStep (pm : ProvidersManager) (provider : ProviderPreferences) :
    ProvidersManager :=
  match provider.api_key with
  | none => pm
  | some api_key =>
    let api_key := String.mk (rustTrim api_key.data)
    if api_key.isEmpty then
      pm
    else
      let client : OpenAiClient := { url := provider.url, key := api_key }
      let pm := { pm with clients := assocInsert pm.clients provider.id client }
      if pm.active_provider_id.isNone then
        { pm with active_provider_id := some provider.id }
      else
        pm

/-- `ProvidersManager::configure_providers`: clear everything, then run
`configureStep` over the provider list. -/
def configure_providers (pm : ProvidersManager) (providers : List ProviderPreferences) :
    ProvidersManager :=
  providers.foldl configureStep
    { pm with clients := [], provider_bots := [], all_bots := [] }

/-- `ProvidersManager::rebuild_all_bots`: flatten every stored per-provider
list into `all_bots`. -/
def rebuild_all_bots (pm : ProvidersManager) : ProvidersManager :=
  { pm with all_bots := pm.provider_bots.foldl (fun acc e => acc ++ e.2) [] }

/-- `ProvidersManager::set_provider_bots`. -/
def set_provider_bots (pm : ProvidersManager) (provider_id : String) (bots : List Bot) :
    ProvidersManager :=
  rebuild_all_bots { pm with provider_bots := assocInsert pm.provider_bots provider_id bots }

/-- `ProvidersManager::get_all_bots`. -/
def get_all_bots (pm : ProvidersManager) : List Bot :=
  pm.all_bots

/-- `ProvidersManager::clear_all_bots`. -/
def clear_all_bots (pm : ProvidersManager) : ProvidersManager :=
  { pm with provider_bots := [], all_bots := [] }

/-- `ProvidersManager::clone_client`. -/
def clone_client (pm : ProvidersManager) (provider_id : String) : Option OpenAiClient :=
  assocLookup pm.clients provider_id

/-- `ProvidersManager::get_provider_for_bot`: exact search of the stored
per-provider bot lists, then the substring-containment heuristic over the
configured clients. -/
def get_provider_for_bot (pm : ProvidersManager) (bot_id : BotId) : Option String :=
  match pm.provider_bots.find? (fun e => e.2.any (fun b => b.id == bot_id)) with
  | some e => some e.1
  | none =>
    (pm.clients.find? (fun e => strContains bot_id.provider e.1)).map (fun e => e.1)

end ProvidersManager

/-! ## Chat app orchestrator (moly-shell/src/apps/chat.rs)

The shared `ChatController` belongs to moly-kit.  Modelled from the spec and
the code comments in chat.rs: its observable state is the bot list, the
selected bot id, and the installed client; `set_client` installs a client
and clears the bot list (chat.rs relies on this: "set_client clears them");
`dispatch_mutation` applies `VecMutation::Set` / `SetBotId` mutations to
that state; `dispatch_task(ChatTask::Load)` starts the asynchronous model
fetch, whose completion is only observable through bot-list growth. -/
/-- Modelled from the spec: the observable state of the moly-kit
`ChatController`. -/
structure ControllerState where
  bots : List Bot
  bot_id : Option BotId
  client : Option OpenAiClient
  deriving DecidableEq, Repr

/-- Modelled from the spec: `ChatController::set_client`, which installs the
client and clears the bot list. -/
def ControllerState.set_client (ctrl : ControllerState) (c : Option OpenAiClient) :
    ControllerState :=
  { ctrl with client := c, bots := [] }

/-- The `#[rust]` state of the `ChatApp` widget (chat.rs), minus the pure
widget-plumbing flags (`controller_set_on_widget`, `needs_controller_reset`).
`visitedIdx` is a history (ghost) variable: the `providers_to_fetch` indices
for which `ChatTask::Load` has been dispatched since the last
(re)configuration, in dispatch order.  It is appended to exactly where
`start_fetch_for_provider` dispatches a load and reset exactly where
`maybe_configure_providers` rebuilds `providers_to_fetch`; no control flow
reads it. -/
structure ChatAppState where
  providers_configured : Bool
  current_provider_id : Option String
  fetched_provider_ids : List String
  providers_to_fetch : List String
  fetch_index : Nat
  fetch_in_progress : Bool
  last_bots_count : Nat
  last_saved_bot_id : Option String
  restored_saved_model : Bool
  visitedIdx : List Nat
  deriving DecidableEq, Repr

/-- The `Store` slice reachable from `ChatApp` handlers (preferences and the
providers manager; chats and the moly-server client are untouched by the
orchestrator). -/
structure Store where
  preferences : Preferences
  providers_manager : ProvidersManager
  deriving DecidableEq, Repr

/-- `Store::reconfigure_providers`. -/
def Store.reconfigure_providers (st : Store) : Store :=
  { st with
      providers_manager :=
        st.providers_manager.configure_providers st.preferences.get_enabled_providers }

/-- Everything one `handle_event` pass can read or write: the widget state,
the store behind the scope, and the shared controller. -/
structure FullState where
  app : ChatAppState
  store : Store
  controller : ControllerState
  deriving DecidableEq, Repr

/-- Events of the fetch orchestration, emitted by the embedded handlers in
program order: a `ChatTask::Load` dispatch (`started`), a skipped provider
with no client (`skipped`), an observed completion by bot-list growth
(`completed`), a (re)configuration, and the synchronous clear-all on an
empty enabled-provider set. -/
inductive FetchEffect where
  | started (index : Nat) (provider_id : String)
  | skipped (index : Nat) (provider_id : String)
  | completed (provider_id : Option String)
  | configured
  | clearedAll
  deriving DecidableEq, Repr

/-- `ChatApp::parse_bot_id_string`: split the saved string at the first `;`,
parse the byte length, then slice the remainder at that byte offset (the
separator byte itself is skipped without being checked).  `none` is the Rust
panic when a slice index is not a character boundary; any other parse
failure degrades to a pair of empty strings. -/
def parse_bot_id_string (bot_id_str : String) : Option (String × String) :=
  match splitOnceChar ';' bot_id_str.data with
  | some (id_length_str, rest) =>
    match parseUsize id_length_str with
    | some id_length =>
      if byteLen rest ≥ id_length + 1 then
        match takeBytes id_length rest, dropBytes (id_length + 1) rest with
        | some model_name, some provider => some (String.mk model_name, String.mk provider)
        | _, _ => none
      else
        some ("", "")
    | none => some ("", "")
  | none => some ("", "")

/-- `ChatApp::switch_to_provider_for_bot`: look up the bot's owning
provider; when it differs from the current one and has a client, install
that client (clearing the controller's bots) and restore the combined bot
list. -/
def switch_to_provider_for_bot (bot_id : BotId) (st : FullState) : FullState :=
  match st.store.providers_manager.get_provider_for_bot bot_id with
  | some provider_id =>
    if st.app.current_provider_id ≠ some provider_id then
      match st.store.providers_manager.clone_client provider_id with
      | some client =>
        let all_bots := st.store.providers_manager.get_all_bots
        let ctrl := st.controller.set_client (some client)
        let ctrl := { ctrl with bots := all_bots }
        { st with
            controller := ctrl,
            app := { st.app with current_provider_id := some provider_id } }
      | none => st
    else
      st
  | none => st

/-- `ChatApp::restore_saved_model`.  `none` is the panic propagated from
`parse_bot_id_string`. -/
def restore_saved_model (st : FullState) : Option FullState :=
  if st.app.restored_saved_model then
    some st
  else
    let saved_model := st.store.preferences.current_chat_model
    let all_bots := st.store.providers_manager.get_all_bots
    if hb : all_bots.isEmpty then
      some { st with app := { st.app with restored_saved_model := true } }
    else
      match saved_model with
      | none =>
        let first_bot_id := (all_bots.head (by simpa [List.isEmpty_iff] using hb)).id
        let st := switch_to_provider_for_bot first_bot_id st
        let st := { st with controller := { st.controller with bot_id := some first_bot_id } }
        some { st with
            app := { st.app with
                last_saved_bot_id := some first_bot_id.asStr,
                restored_saved_model := true } }
      | some saved_model =>
        match parse_bot_id_string saved_model with
        | none => none
        | some (saved_model_name, saved_provider) =>
          let matching_bot :=
            match all_bots.find? (fun bot => bot.id.asStr == saved_model) with
            | some bot => some bot
            | none =>
              all_bots.find? (fun bot =>
                let bot_model_name := bot.id.id
                let bot_provider := bot.id.provider
                bot_provider == saved_provider &&
                  (bot_model_name == saved_model_name ||
                    bot_model_name == "models/" ++ saved_model_name ||
                    saved_model_name == "models/" ++ bot_model_name))
          match matching_bot with
          | some bot =>
            let matched_bot_id := bot.id
            let matched_bot_id_str := bot.id.asStr
            let st := switch_to_provider_for_bot matched_bot_id st
            let st :=
              { st with controller := { st.controller with bot_id := some matched_bot_id } }
            let st :=
              { st with
                  app := { st.app with last_saved_bot_id := some matched_bot_id_str } }
            let st :=
              if matched_bot_id_str ≠ saved_model then
                { st with
                    store :=
                      { st.store with
                          preferences :=
                            st.store.preferences.set_current_chat_model
                              (some matched_bot_id_str) } }
              else
                st
            some { st with
                app := { st.app with restored_saved_model := true } }
          | none =>
            let first_bot_id := (all_bots.head (by simpa [List.isEmpty_iff] using hb)).id
            let st := switch_to_provider_for_bot first_bot_id st
            let st :=
              { st with controller := { st.controller with bot_id := some first_bot_id } }
            some { st with
                app := { st.app with
                    last_saved_bot_id := some first_bot_id.asStr,
                    restored_saved_model := true } }

/-- `ChatApp::track_model_selection`: once the saved model has been
restored, persist the controller's selection whenever it differs from the
last saved id, switching the active client to the owning provider first. -/
def track_model_selection (st : FullState) : FullState :=
  if !st.app.restored_saved_model then
    st
  else
    let current_bot_id := st.controller.bot_id
    let current_bot_id_str := current_bot_id.map (fun i => i.asStr)
    if current_bot_id_str ≠ st.app.last_saved_bot_id then
      match current_bot_id with
      | some bot_id =>
        let st := switch_to_provider_for_bot bot_id st
        let st :=
          { st with
              store :=
                { st.store with
                    preferences :=
                      st.store.preferences.set_current_chat_model (some bot_id.asStr) } }
        { st with app := { st.app with last_saved_bot_id := some bot_id.asStr } }
      | none =>
        { st with app := { st.app with last_saved_bot_id := none } }
    else
      st

/-- `ChatApp::start_fetch_for_provider`: walk `providers_to_fetch` from
`index`, skipping providers with no configured client; at the first provider
with a client, install it on the controller, dispatch `ChatTask::Load` and
mark the fetch in flight; past the end of the list, mark the fetch cycle
finished. -/
def start_fetch_for_provider (st : FullState) (index : Nat) :
    FullState × List FetchEffect :=
  if h : st.app.providers_to_fetch.length ≤ index then
    ({ st with app := { st.app with fetch_in_progress := false } }, [])
  else
    let provider_id := st.app.providers_to_fetch.get ⟨index, by omega⟩
    match st.store.providers_manager.clone_client provider_id with
    | none =>
      let out := start_fetch_for_provider st (index + 1)
      (out.1, FetchEffect.skipped index provider_id :: out.2)
    | some client =>
      let ctrl := st.controller.set_client (some client)
      ({ st with
          controller := ctrl,
          app := { st.app with
              current_provider_id := some provider_id,
              fetch_index := index,
              fetch_in_progress := true,
              last_bots_count := 0,
              visitedIdx := st.app.visitedIdx ++ [index] } },
        [FetchEffect.started index provider_id])
  termination_by st.app.providers_to_fetch.length - index

/-- `ChatApp::maybe_configure_providers`. -/
def maybe_configure_providers (st : FullState) : FullState × List FetchEffect :=
  if st.app.fetch_in_progress then
    (st, [])
  else
    let enabled_providers := st.store.preferences.get_enabled_providers
    let current_provider_ids := enabled_providers.map (fun p => p.id)
    let needs_reconfigure :=
      st.app.providers_configured &&
        !listSetEq st.app.fetched_provider_ids current_provider_ids
    if st.app.providers_configured && !needs_reconfigure then
      (st, [])
    else if enabled_providers.isEmpty then
      if st.app.providers_configured then
        ({ st with
            store :=
              { st.store with
                  providers_manager := st.store.providers_manager.clear_all_bots },
            controller := { st.controller with bots := [], bot_id := none },
            app := { st.app with
                fetched_provider_ids := [],
                providers_configured := false,
                restored_saved_model := false,
                last_saved_bot_id := none } },
          [FetchEffect.clearedAll])
      else
        (st, [])
    else
      let st :=
        if needs_reconfigure then
          { st with
              store :=
                { st.store with
                    providers_manager := st.store.providers_manager.clear_all_bots },
              app := { st.app with restored_saved_model := false } }
        else
          st
      let st :=
        { st with
            app := { st.app with
                fetched_provider_ids := [],
                providers_to_fetch := [],
                fetch_index := 0,
                visitedIdx := [] } }
      let st := { st with store := st.store.reconfigure_providers }
      let providers_to_fetch :=
        enabled_providers.foldl
          (fun acc provider =>
            let api_key := String.mk (rustTrim (provider.api_key.getD "").data)
            if api_key.isEmpty then acc else acc ++ [provider.id])
          []
      let st :=
        { st with
            app := { st.app with
                providers_to_fetch := providers_to_fetch,
                providers_configured := true } }
      if providers_to_fetch.isEmpty then
        (st, [FetchEffect.configured])
      else
        let out := start_fetch_for_provider st 0
        (out.1, FetchEffect.configured :: out.2)

/-- `ChatApp::check_for_loaded_bots`.  `none` is the panic propagated from
`restore_saved_model`; the widget-level controller re-installation around
the final bots dispatch has no model-visible effect beyond the dispatch
itself. -/
def check_for_loaded_bots (st : FullState) : Option (FullState × List FetchEffect) :=
  if !st.app.fetch_in_progress then
    some (st, [])
  else
    let bots := st.controller.bots
    if bots.isEmpty || bots.length == st.app.last_bots_count then
      some (st, [])
    else
      let st := { st with app := { st.app with last_bots_count := bots.length } }
      let st :=
        match st.app.current_provider_id with
        | some current_provider =>
          let st :=
            { st with
                store :=
                  { st.store with
                      providers_manager :=
                        st.store.providers_manager.set_provider_bots current_provider bots } }
          if st.app.fetched_provider_ids.contains current_provider then
            st
          else
            { st with
                app := { st.app with
                    fetched_provider_ids :=
                      st.app.fetched_provider_ids ++ [current_provider] } }
        | none => st
      let eff := FetchEffect.completed st.app.current_provider_id
      let next_index := st.app.fetch_index + 1
      if next_index < st.app.providers_to_fetch.length then
        let out := start_fetch_for_provider st next_index
        some (out.1, eff :: out.2)
      else
        let st := { st with app := { st.app with fetch_in_progress := false } }
        let all_bots := st.store.providers_manager.get_all_bots
        let st := { st with controller := { st.controller with bots := all_bots } }
        let all_bots_for_reset := st.store.providers_manager.get_all_bots
        match restore_saved_model st with
        | none => none
        | some st =>
          some ({ st with controller := { st.controller with bots := all_bots_for_reset } },
            [eff])

/-- The background fetch thread writing freshly loaded bots into the shared
controller between two UI ticks (the only cross-thread communication). -/
def injectBots (bots : List Bot) (st : FullState) : FullState :=
  { st with controller := { st.controller with bots := bots } }

/-- One `ChatApp::handle_event` pass over the orchestration handlers, in
program order: `maybe_configure_providers`, `check_for_loaded_bots`,
`track_model_selection`.  `none` is a propagated panic. -/
def tick (st : FullState) : Option (FullState × List FetchEffect) :=
  let out1 := maybe_configure_providers st
  match check_for_loaded_bots out1.1 with
  | none => none
  | some out2 => some (track_model_selection out2.1, out1.2 ++ out2.2)

/-! ## C9: the `all_bots` flattening invariant -/
/-- The combined list coincides (as a multiset) with the concatenation of the
stored per-provider lists. -/
def PmBotsInv (pm : ProvidersManager) : Prop :=
  (Multiset.ofList pm.all_bots) =
    (Multiset.ofList (pm.provider_bots.foldl (fun acc e => acc ++ e.2) []))

/-- A concrete bot used by the witness theorems. -/
def demoBot : Bot :=
  { id := { id := "gpt-4o", provider := "openai" }, name := "gpt-4o" }

/-! ## Chat persistence (moly-data/src/chats.rs)

`Message` and `EntityId` are owned by the external moly-kit crate.  Modelled
from the spec: a message "carries `content.text`, `from` (user/assistant),
and a transient `is_writing` flag that is never persisted (reset to false on
load/switch)". -/
/-- Modelled from the spec: moly-kit `EntityId`, the sender of a message. -/
inductive EntityId where
  | user
  | assistant
  deriving DecidableEq, Repr

/-- Modelled from the spec: moly-kit message content; only the text is read
by this repository. -/
structure MessageContent where
  text : String
  deriving DecidableEq, Repr

/-- Modelled from the spec: moly-kit message metadata, whose `is_writing`
flag is transient (serde-skipped, so never persisted). -/
structure MessageMetadata where
  is_writing : Bool
  deriving DecidableEq, Repr

/-- Modelled from the spec: a moly-kit chat message.  The Rust field `from`
is a Lean keyword and is called `msg_from` here. -/
structure Message where
  msg_from : EntityId
  content : MessageContent
  metadata : MessageMetadata
  deriving DecidableEq, Repr

/-- The serde-persisted form of a `Message`: everything except the
serde-skipped `is_writing` flag. -/
structure StoredMessage where
  msg_from : EntityId
  content : MessageContent
  deriving DecidableEq, Repr

/-- Serialization of a message (drops `is_writing`). -/
def serializeMessage (m : Message) : StoredMessage :=
  { msg_from := m.msg_from, content := m.content }

/-- Deserialization of a message (`is_writing` takes its serde default,
`false`). -/
def deserializeMessage (s : StoredMessage) : Message :=
  { msg_from := s.msg_from, content := s.content, metadata := { is_writing := false } }

/-- `ChatData` (the in-memory session).  `u128` ids and millisecond
timestamps are plain naturals/integers. -/
structure ChatData where
  id : Nat
  title : String
  bot_id : Option BotId
  messages : List Message
  created_at : Int
  accessed_at : Int
  deriving DecidableEq, Repr

/-- The serde-persisted form of a `ChatData` (per-message `is_writing`
dropped). -/
structure StoredChatData where
  id : Nat
  title : String
  bot_id : Option BotId
  messages : List StoredMessage
  created_at : Int
  accessed_at : Int
  deriving DecidableEq, Repr

/-- Serialization of a chat session (`serde_json::to_string_pretty`). -/
def ChatData.toStored (c : ChatData) : StoredChatData :=
  { id := c.id, title := c.title, bot_id := c.bot_id,
    messages := c.messages.map serializeMessage,
    created_at := c.created_at, accessed_at := c.accessed_at }

/-- Deserialization of a chat session (`serde_json::from_str`). -/
def ChatData.ofStored (s : StoredChatData) : ChatData :=
  { id := s.id, title := s.title, bot_id := s.bot_id,
    messages := s.messages.map deserializeMessage,
    created_at := s.created_at, accessed_at := s.accessed_at }

/-- The chats directory: file name to stored (JSON) content. -/
abbrev Fs : Type :=
  List (String × StoredChatData)

/-- `ChatData::file_name`. -/
def ChatData.file_name (c : ChatData) : String :=
  toString c.id ++ ".chat.json"

/-- `ChatData::save`: whole-file overwrite of the serialized session. -/
def ChatData.save (c : ChatData) (fs : Fs) : Fs :=
  assocInsert fs c.file_name c.toStored

/-- `ChatData::load`: read and parse one session file; an absent (or, in the
real code, unreadable) file is `none`. -/
def ChatData.load (fs : Fs) (path : String) : Option ChatData :=
  (assocLookup fs path).map ChatData.ofStored

/-- `ChatData::delete_file`: unlink the backing file. -/
def ChatData.delete_file (c : ChatData) (fs : Fs) : Fs :=
  fs.filter (fun e => !(e.1 == c.file_name))

/-- `ChatData::maybe_update_title_from_messages`: derive the title from the
first user message while the title is still the default placeholder,
truncating to the first 50 bytes.  The Rust truncation `&text[..50]` slices
by bytes and panics (`none` here) when byte 50 is not a character
boundary. -/
def ChatData.maybe_update_title_from_messages (c : ChatData) : Option ChatData :=
  if c.title == "New Chat" && !c.messages.isEmpty then
    match c.messages.find? (fun m => m.msg_from == EntityId.user) with
    | some msg =>
      let text := rustTrim msg.content.text.data
      if !text.isEmpty then
        if byteLen text > 50 then
          match takeBytes 50 text with
          | some prefixChars => some { c with title := String.mk prefixChars ++ "..." }
          | none => none
        else
          some { c with title := String.mk text }
      else
        some c
    | none => some c
  else
    some c

/-- `Chats`: the in-memory session list and current-chat pointer (the
directory path is a constant of the environment and lives in `Fs`). -/
structure Chats where
  saved_chats : List ChatData
  current_chat_id : Option Nat
  deriving DecidableEq, Repr

/-- Reset of the transient writing flag applied by `update_chat_messages`. -/
def clearWriting (m : Message) : Message :=
  { m with metadata := { m.metadata with is_writing := false } }

/-- Replace the first element satisfying `p` (the in-place mutation through
`iter_mut().find` in `Chats::get_chat_by_id_mut`). -/
def replaceFirst {α : Type} (p : α → Bool) (a : α) : List α → List α
  | [] => []
  | x :: xs => if p x then a :: xs else x :: replaceFirst p a xs

/-- `Chats::update_chat_messages`: replace the message list of the chat with
the given id (first match), resetting every `is_writing` flag, re-deriving
the title, and saving the file.  `none` is the Rust panic from the title
truncation; a missing chat id leaves everything unchanged. -/
def Chats.update_chat_messages (chats : Chats) (fs : Fs) (chat_id : Nat)
    (messages : List Message) : Option (Chats × Fs) :=
  match chats.saved_chats.find? (fun c => c.id == chat_id) with
  | none => some (chats, fs)
  | some chat =>
    let messages := messages.map clearWriting
    let chat := { chat with messages := messages }
    match chat.maybe_update_title_from_messages with
    | none => none
    | some chat =>
      some
        ({ chats with
            saved_chats := replaceFirst (fun c => c.id == chat_id) chat chats.saved_chats },
          chat.save fs)

/-- `Chats::delete_chat`: remove the first session with the given id from
memory, unlink its backing file, and repoint `current_chat_id` at the first
remaining session (or `none`) when it referred to the deleted one.  (Rust
finds the position and calls `Vec::remove`; erasing the first match is the
same operation.) -/
def Chats.delete_chat (chats : Chats) (fs : Fs) (chat_id : Nat) : Chats × Fs :=
  let (chats, fs) :=
    match chats.saved_chats.find? (fun c => c.id == chat_id) with
    | some chat =>
      ({ chats with saved_chats := chats.saved_chats.eraseP (fun c => c.id == chat_id) },
        chat.delete_file fs)
    | none => (chats, fs)
  let chats :=
    if chats.current_chat_id == some chat_id then
      { chats with current_chat_id := chats.saved_chats.head?.map (fun c => c.id) }
    else
      chats
  (chats, fs)

/-- Concrete data for the C4 witness. -/
def c4MsgIn : Message :=
  { msg_from := EntityId.user, content := { text := "hi" },
    metadata := { is_writing := true } }

/-- Concrete chat for the C4 witness. -/
def c4ChatIn : ChatData :=
  { id := 1, title := "Chat", bot_id := none, messages := [],
    created_at := 0, accessed_at := 0 }

/-- Concrete chats for the C7 witness. -/
def c7ChatA : ChatData :=
  { id := 1, title := "a", bot_id := none, messages := [], created_at := 0, accessed_at := 0 }

/-- Second concrete chat for the C7 witness. -/
def c7ChatB : ChatData :=
  { id := 2, title := "b", bot_id := none, messages := [], created_at := 0, accessed_at := 0 }

/-- The concrete chat whose title derivation panics: its first user message
trims to 49 ASCII bytes followed by a two-byte character, so the text is 51
bytes long and byte 50 is not a character boundary. -/
def c10Chat : ChatData :=
  { id := 7, title := "New Chat", bot_id := none,
    messages :=
      [{ msg_from := EntityId.user,
          content := { text := String.mk (List.replicate 49 'a' ++ ['é']) },
          metadata := { is_writing := false } }],
    created_at := 0, accessed_at := 0 }

/-! ## Provider connection test (apps/moly-settings/src/screen/mod.rs)

The HTTP layer is an oracle `net : String → HttpResult`; the serde parse of
the models response body is an oracle `parse`.  The API key only feeds the
`Authorization` header and cannot influence control flow, so it is carried
but unused. -/
/-- Result of one blocking GET: a transport failure (Rust maps timeout,
connect and other reqwest errors to distinct strings; the mapped string is
carried directly), or a status plus the body text (`none` when
`response.text()` itself fails). -/
inductive HttpResult where
  | failure (msg : String)
  | response (status : Nat) (body : Option String)
  deriving DecidableEq, Repr

/-- The error string for a terminal non-2xx, non-404 status
(`match status.as_u16()` in `test_provider_connection`). -/
def statusErrMsg (status : Nat) (body : String) : String :=
  if status == 401 then "Invalid API key"
  else if status == 403 then "Access denied"
  else if status == 429 then "Rate limited"
  else "HTTP " ++ toString status ++ ": " ++ body

/-- The endpoint patterns tried in order (`endpoints_to_try`). -/
def endpointsToTry (base : String) : List String :=
  [base ++ "/models", base ++ "/v1/models", base]

/-- The `for models_url in &endpoints_to_try` loop of
`test_provider_connection`, with the `last_error` accumulator; also returns
the list of URLs actually requested, in order. -/
def connectionTestGo (net : String → HttpResult) (parse : String → Option (List String)) :
    List String → String → Except String (Nat × List String) × List String
  | [], last_error =>
    (Except.error (if last_error.isEmpty then "Could not find models endpoint" else last_error),
      [])
  | url :: rest, last_error =>
    match net url with
    | HttpResult.failure msg =>
      let out := connectionTestGo net parse rest msg
      (out.1, url :: out.2)
    | HttpResult.response status body =>
      if status == 404 then
        let out := connectionTestGo net parse rest ("Endpoint not found: " ++ url)
        (out.1, url :: out.2)
      else if ¬(200 ≤ status ∧ status ≤ 299) then
        (Except.error (statusErrMsg status (body.getD "")), [url])
      else
        match body with
        | none =>
          let out := connectionTestGo net parse rest "Failed to read response"
          (out.1, url :: out.2)
        | some b =>
          match parse b with
          | some models => (Except.ok (models.length, models), [url])
          | none => (Except.ok (0, []), [url])

/-- `test_provider_connection`: trim trailing slashes off the base URL, then
walk the three endpoint patterns. -/
def test_provider_connection (net : String → HttpResult)
    (parse : String → Option (List String)) (base_url api_key : String) :
    Except String (Nat × List String) × List String :=
  let base := trimEndSlashes base_url
  connectionTestGo net parse (endpointsToTry base) ""

/-- Concrete network oracle for the C8 witness: 404 on the first pattern,
401 on the second. -/
def c8Net : String → HttpResult := fun url =>
  if url == "https://api.example.com/models" then HttpResult.response 404 (some "nf")
  else if url == "https://api.example.com/v1/models" then
    HttpResult.response 401 (some "unauthorized")
  else HttpResult.response 200 (some "m")

/-- Concrete parse oracle for the C8 witness. -/
def c8Parse : String → Option (List String) := fun _ => none

/-- Concrete state for the C6 witness: the flag is set. -/
def c6State : FullState :=
  { app :=
      { providers_configured := true, current_provider_id := some "openai",
        fetched_provider_ids := ["openai"], providers_to_fetch := ["openai"],
        fetch_index := 0, fetch_in_progress := false, last_bots_count := 1,
        last_saved_bot_id := some (BotId.asStr demoBot.id), restored_saved_model := true,
        visitedIdx := [0] },
    store :=
      { preferences :=
          { providers_preferences := [], current_chat_model := some (BotId.asStr demoBot.id) },
        providers_manager :=
          { clients := [("openai", { url := "https://api.openai.com/v1", key := "k" })],
            provider_bots := [("openai", [demoBot])], all_bots := [demoBot],
            active_provider_id := some "openai" } },
    controller := { bots := [demoBot], bot_id := some demoBot.id, client := none } }

/-- The concrete state falsifying the persist clause of C3: one fetched
provider with one bot, no saved model, resolver not yet run. -/
def c3State : FullState :=
  { app :=
      { providers_configured := true, current_provider_id := none,
        fetched_provider_ids := ["openai"], providers_to_fetch := ["openai"],
        fetch_index := 0, fetch_in_progress := false, last_bots_count := 1,
        last_saved_bot_id := none, restored_saved_model := false,
        visitedIdx := [0] },
    store :=
      { preferences := { providers_preferences := [], current_chat_model := none },
        providers_manager :=
          { clients := [("openai", { url := "https://api.openai.com/v1", key := "k" })],
            provider_bots := [("openai", [demoBot])], all_bots := [demoBot],
            active_provider_id := some "openai" } },
    controller := { bots := [demoBot], bot_id := none, client := none } }

/-! ## C2: the `models/` prefix fuzzy rule -/
/-- A bot from a second provider, listed before the `models/`-prefixed one. -/
def botClaude : Bot :=
  { id := { id := "claude-3", provider := "anthropic" }, name := "claude-3" }

/-- The `models/`-prefixed bot of the C2 scenario; its composite id string is
`"13;models/gpt-4o@openai"`. -/
def botGpt : Bot :=
  { id := { id := "models/gpt-4o", provider := "openai" }, name := "gpt-4o" }

/-- The C2 scenario with the claim's saved string `"5;gpt-4o@openai"`. -/
def c2State : FullState :=
  { app :=
      { providers_configured := true, current_provider_id := some "openai",
        fetched_provider_ids := ["anthropic", "openai"],
        providers_to_fetch := ["anthropic", "openai"],
        fetch_index := 1, fetch_in_progress := false, last_bots_count := 1,
        last_saved_bot_id := none, restored_saved_model := false,
        visitedIdx := [0, 1] },
    store :=
      { preferences :=
          { providers_preferences := [], current_chat_model := some "5;gpt-4o@openai" },
        providers_manager :=
          { clients :=
              [("anthropic", { url := "https://api.anthropic.com/v1", key := "ka" }),
                ("openai", { url := "https://api.openai.com/v1", key := "ko" })],
            provider_bots := [("anthropic", [botClaude]), ("openai", [botGpt])],
            all_bots := [botClaude, botGpt],
            active_provider_id := some "anthropic" } },
    controller := { bots := [botClaude, botGpt], bot_id := none, client := none } }

/-- The same scenario with the correctly length-prefixed saved string
`"6;gpt-4o@openai"` (`gpt-4o` is 6 bytes long). -/
def c2GoodState : FullState :=
  { c2State with
      store :=
        { c2State.store with
            preferences :=
              { c2State.store.preferences with
                  current_chat_model := some "6;gpt-4o@openai" } } }

/-- Concrete state for the C5 witness. -/
def c5State : FullState :=
  { app :=
      { providers_configured := true, current_provider_id := some "openai",
        fetched_provider_ids := ["openai"], providers_to_fetch := ["openai"],
        fetch_index := 0, fetch_in_progress := false, last_bots_count := 1,
        last_saved_bot_id := some (BotId.asStr demoBot.id), restored_saved_model := true,
        visitedIdx := [0] },
    store :=
      { preferences :=
          { providers_preferences :=
              [{ id := "openai", name := "OpenAI", url := "https://api.openai.com/v1",
                  api_key := some "k", enabled := false, was_customly_added := false }],
            current_chat_model := some (BotId.asStr demoBot.id) },
        providers_manager :=
          { clients := [("openai", { url := "https://api.openai.com/v1", key := "k" })],
            provider_bots := [("openai", [demoBot])], all_bots := [demoBot],
            active_provider_id := some "openai" } },
    controller := { bots := [demoBot], bot_id := some demoBot.id, client := none } }

/-! ## C1: sequential fetching, at most one fetch in flight

The observables are the `FetchEffect` logs of the ticks plus the ghost
dispatch history `visitedIdx`.  `inflight` is the pending-fetch potential:
across a trace, start events can exceed complete-or-skip events only by the
one pending fetch. -/
/-- 1 when a fetch is in flight, 0 otherwise. -/
def inflight (st : FullState) : Nat :=
  if st.app.fetch_in_progress then 1 else 0

/-- Number of `ChatTask::Load` dispatches in an effect log. -/
def countStarts (effs : List FetchEffect) : Nat :=
  effs.countP (fun e =>
    match e with
    | FetchEffect.started _ _ => true
    | _ => false)

/-- Number of observed completions and skips in an effect log. -/
def countDoneSkip (effs : List FetchEffect) : Nat :=
  effs.countP (fun e =>
    match e with
    | FetchEffect.skipped _ _ => true
    | FetchEffect.completed _ => true
    | _ => false)

/-- Orchestrator invariant: the dispatch history of the current cycle is a
strictly increasing sequence of in-range `providers_to_fetch` indices, and
while a fetch is in flight the last dispatched index is the current
`fetch_index`.  Strict increase is exactly "providers are visited in list
order, each at most once per cycle". -/
def OrchInv (st : FullState) : Prop :=
  List.Chain' (· < ·) st.app.visitedIdx ∧
  (∀ i ∈ st.app.visitedIdx, i < st.app.providers_to_fetch.length) ∧
  (st.app.fetch_in_progress = true →
    st.app.visitedIdx.getLast? = some st.app.fetch_index)

/-- Concrete initial state for the C1 witness: nothing configured. -/
def c1State : FullState :=
  { app :=
      { providers_configured := false, current_provider_id := none,
        fetched_provider_ids := [], providers_to_fetch := [], fetch_index := 0,
        fetch_in_progress := false, last_bots_count := 0, last_saved_bot_id := none,
        restored_saved_model := true, visitedIdx := [] },
    store :=
      { preferences := { providers_preferences := [], current_chat_model := none },
        providers_manager := ProvidersManager.new },
    controller := { bots := [], bot_id := none, client := none } }

theorem foldl_append_eq (l : List (String × List Bot)) (acc : List Bot) :
    l.foldl (fun acc e => acc ++ e.2) acc = acc ++ l.foldl (fun acc e => acc ++ e.2) [] := by
  induction l generalizing acc with
  | nil => simp
  | cons h t ih =>
    simp only [List.foldl_cons, List.nil_append]
    rw [ih (acc ++ h.2), ih h.2, List.append_assoc]

theorem pm_inv_rebuild (pm : ProvidersManager) : PmBotsInv pm.rebuild_all_bots := by
  simp [PmBotsInv, ProvidersManager.rebuild_all_bots]

theorem configureStep_bots (pm : ProvidersManager) (p : ProviderPreferences) :
    (ProvidersManager.configureStep pm p).provider_bots = pm.provider_bots ∧
      (ProvidersManager.configureStep pm p).all_bots = pm.all_bots := by
  unfold ProvidersManager.configureStep
  cases p.api_key with
  | none => exact ⟨rfl, rfl⟩
  | some k =>
    dsimp only
    split
    · exact ⟨rfl, rfl⟩
    · split <;> exact ⟨rfl, rfl⟩

theorem configure_fold_bots (providers : List ProviderPreferences) (pm : ProvidersManager) :
    (providers.foldl ProvidersManager.configureStep pm).provider_bots = pm.provider_bots ∧
      (providers.foldl ProvidersManager.configureStep pm).all_bots = pm.all_bots := by
  induction providers generalizing pm with
  | nil => simp
  | cons h t ih =>
    simp only [List.foldl_cons]
    obtain ⟨h1, h2⟩ := ih (ProvidersManager.configureStep pm h)
    obtain ⟨h3, h4⟩ := configureStep_bots pm h
    exact ⟨h1.trans h3, h2.trans h4⟩

theorem pm_inv_configure (pm : ProvidersManager) (providers : List ProviderPreferences) :
    PmBotsInv (pm.configure_providers providers) := by
  unfold ProvidersManager.configure_providers PmBotsInv
  obtain ⟨h1, h2⟩ := configure_fold_bots providers
    { pm with clients := [], provider_bots := [], all_bots := [] }
  dsimp only at h1 h2
  rw [h1, h2]
  rfl

/-- All bots reported by `get_all_bots` are attributed to some provider's
stored list. -/
theorem pm_inv_attributed (pm : ProvidersManager) (h : PmBotsInv pm) :
    ∀ b ∈ pm.get_all_bots, ∃ e ∈ pm.provider_bots, b ∈ e.2 := by
  intro b hb
  have hmem : b ∈ pm.provider_bots.foldl (fun acc e => acc ++ e.2) [] := by
    have hms := h
    unfold PmBotsInv at hms
    have hmem2 : b ∈ (Multiset.ofList (pm.provider_bots.foldl (fun acc e => acc ++ e.2) [])) := by
      rw [← hms]
      simpa [ProvidersManager.get_all_bots] using hb
    simpa using hmem2
  clear hb h
  revert hmem
  generalize pm.provider_bots = l
  intro hmem
  induction l with
  | nil => simp at hmem
  | cons hd tl ih =>
    rw [List.foldl_cons, foldl_append_eq] at hmem
    simp only [List.nil_append, List.mem_append] at hmem
    rcases hmem with hmem | hmem
    · exact ⟨hd, by simp, hmem⟩
    · obtain ⟨e, he, hbe⟩ := ih hmem
      exact ⟨e, by simp [he], hbe⟩

theorem pm_inv_set (pm : ProvidersManager) (pid : String) (bots : List Bot) :
    PmBotsInv (pm.set_provider_bots pid bots) :=
  pm_inv_rebuild _

theorem pm_inv_clear (pm : ProvidersManager) : PmBotsInv pm.clear_all_bots := by
  unfold PmBotsInv ProvidersManager.clear_all_bots
  rfl

/-- C9: after each mutating operation of `ProvidersManager`
(`configure_providers`, `set_provider_bots`, `clear_all_bots`) the combined
`all_bots` list equals, as a multiset, the concatenation of the stored
per-provider bot lists, and consequently every bot returned by
`get_all_bots` is attributed to some provider's stored list. -/
theorem providers_manager_all_bots_invariant
    (pm : ProvidersManager) (providers : List ProviderPreferences)
    (pid : String) (bots : List Bot) :
    (PmBotsInv (pm.configure_providers providers) ∧
      PmBotsInv (pm.set_provider_bots pid bots) ∧
      PmBotsInv pm.clear_all_bots) ∧
    ((∀ b ∈ (pm.configure_providers providers).get_all_bots,
        ∃ e ∈ (pm.configure_providers providers).provider_bots, b ∈ e.2) ∧
      (∀ b ∈ (pm.set_provider_bots pid bots).get_all_bots,
        ∃ e ∈ (pm.set_provider_bots pid bots).provider_bots, b ∈ e.2) ∧
      (∀ b ∈ pm.clear_all_bots.get_all_bots,
        ∃ e ∈ pm.clear_all_bots.provider_bots, b ∈ e.2)) :=
  ⟨⟨pm_inv_configure pm providers, pm_inv_set pm pid bots, pm_inv_clear pm⟩,
    pm_inv_attributed _ (pm_inv_configure pm providers),
    pm_inv_attributed _ (pm_inv_set pm pid bots),
    pm_inv_attributed _ (pm_inv_clear pm)⟩

/-- Witness for C9 at a concrete manager state. -/
theorem providers_manager_all_bots_invariant_witness :
    ∃ e ∈ (ProvidersManager.new.set_provider_bots "openai" [demoBot]).provider_bots,
      demoBot ∈ e.2 :=
  (providers_manager_all_bots_invariant ProvidersManager.new [] "openai" [demoBot]).2.2.1
    demoBot (by decide)

/-! ## C4, C7, C10: persistence theorems -/
theorem assocLookup_insert {α : Type} [BEq α] [LawfulBEq α] {β : Type}
    (l : List (α × β)) (k : α) (v : β) :
    assocLookup (assocInsert l k v) k = some v := by
  induction l with
  | nil => simp [assocInsert, assocLookup]
  | cons e rest ih =>
    by_cases he : e.1 = k
    · simp [assocInsert, assocLookup, he]
    · have hb : (e.1 == k) = false := by simpa using he
      simp only [assocInsert, hb, Bool.false_eq_true, if_false]
      simp only [assocLookup, List.find?_cons, hb] at ih ⊢
      exact ih

theorem assocLookup_filter_ne (fs : Fs) (name : String) :
    assocLookup (fs.filter (fun e => !(e.1 == name))) name = none := by
  induction fs with
  | nil => simp [assocLookup]
  | cons e rest ih =>
    rw [List.filter_cons]
    split
    · rename_i hcond
      have hb : (e.1 == name) = false := by simpa using hcond
      unfold assocLookup at ih ⊢
      rw [List.find?_cons, hb]
      exact ih
    · exact ih

theorem roundtrip_message (m : Message) :
    deserializeMessage (serializeMessage (clearWriting m)) = clearWriting m :=
  rfl

theorem title_update_messages (c c2 : ChatData)
    (h : c.maybe_update_title_from_messages = some c2) :
    c2.messages = c.messages ∧ c2.id = c.id := by
  unfold ChatData.maybe_update_title_from_messages at h
  by_cases h1 : (c.title == "New Chat" && !c.messages.isEmpty) = true
  · rw [if_pos h1] at h
    rcases hf : c.messages.find? (fun m => m.msg_from == EntityId.user) with _ | msg
    · rw [hf] at h
      cases h
      exact ⟨rfl, rfl⟩
    · rw [hf] at h
      simp only at h
      by_cases h2 : (!(rustTrim msg.content.text.data).isEmpty) = true
      · rw [if_pos h2] at h
        by_cases h3 : byteLen (rustTrim msg.content.text.data) > 50
        · rw [if_pos h3] at h
          rcases ht : takeBytes 50 (rustTrim msg.content.text.data) with _ | pre
          · rw [ht] at h
            cases h
          · rw [ht] at h
            cases h
            exact ⟨rfl, rfl⟩
        · rw [if_neg h3] at h
          cases h
          exact ⟨rfl, rfl⟩
      · rw [if_neg h2] at h
        cases h
        exact ⟨rfl, rfl⟩
  · rw [if_neg h1] at h
    cases h
    exact ⟨rfl, rfl⟩

/-- C4: updating a chat's messages and saving, then reloading the session
file, yields exactly the input message list with every `is_writing` flag
reset to `false` (all other message content survives the serialize /
deserialize round trip). -/
theorem chat_messages_roundtrip (chats : Chats) (fs : Fs) (chat_id : Nat)
    (messages : List Message) (out : Chats × Fs)
    (hfound : ∃ c ∈ chats.saved_chats, c.id = chat_id)
    (hupd : chats.update_chat_messages fs chat_id messages = some out) :
    ∃ cd, ChatData.load out.2 (toString chat_id ++ ".chat.json") = some cd ∧
      cd.messages = messages.map clearWriting := by
  obtain ⟨c, hc, hcid⟩ := hfound
  have hsome : (chats.saved_chats.find? (fun c => c.id == chat_id)).isSome := by
    rw [List.find?_isSome]
    exact ⟨c, hc, by simp [hcid]⟩
  obtain ⟨chat0, hfind⟩ := Option.isSome_iff_exists.mp hsome
  have hchat0 : chat0.id = chat_id := by
    have := List.find?_some hfind
    simpa using this
  unfold Chats.update_chat_messages at hupd
  rw [hfind] at hupd
  dsimp only at hupd
  set chatM : ChatData := { chat0 with messages := messages.map clearWriting } with hchatM
  rcases htitle : chatM.maybe_update_title_from_messages with _ | chat1
  · rw [htitle] at hupd
    cases hupd
  · rw [htitle] at hupd
    obtain ⟨hmsg, hid⟩ := title_update_messages _ _ htitle
    cases hupd
    refine ⟨ChatData.ofStored chat1.toStored, ?_, ?_⟩
    · have hname : chat1.file_name = toString chat_id ++ ".chat.json" := by
        unfold ChatData.file_name
        rw [hid]
        simp [hchatM, hchat0]
      unfold ChatData.load ChatData.save
      rw [← hname, assocLookup_insert]
      rfl
    · show (ChatData.ofStored chat1.toStored).messages = messages.map clearWriting
      unfold ChatData.ofStored ChatData.toStored
      dsimp only
      rw [hmsg]
      show ((messages.map clearWriting).map serializeMessage).map deserializeMessage =
        messages.map clearWriting
      rw [List.map_map, List.map_map]
      apply List.map_congr_left
      intro m _
      rfl

/-- Witness for C4 at a concrete session and message list. -/
theorem chat_messages_roundtrip_witness :
    ∃ cd,
      ChatData.load
        (ChatData.save { c4ChatIn with messages := [clearWriting c4MsgIn] } [])
        (toString 1 ++ ".chat.json") = some cd ∧
      cd.messages = [c4MsgIn].map clearWriting :=
  chat_messages_roundtrip
    { saved_chats := [c4ChatIn], current_chat_id := none } [] 1 [c4MsgIn]
    ({ saved_chats := [{ c4ChatIn with messages := [clearWriting c4MsgIn] }],
        current_chat_id := none },
      ChatData.save { c4ChatIn with messages := [clearWriting c4MsgIn] } [])
    ⟨c4ChatIn, by decide, rfl⟩ (by decide)

theorem nodup_eraseP_not_mem (l : List ChatData) (chat_id : Nat)
    (hnd : (l.map (fun c => c.id)).Nodup) :
    ∀ d ∈ l.eraseP (fun c => c.id == chat_id), d.id ≠ chat_id := by
  induction l with
  | nil =>
    intro d hd
    simp [List.eraseP] at hd
  | cons x xs ih =>
    rw [List.map_cons, List.nodup_cons] at hnd
    intro d hd
    rw [List.eraseP_cons] at hd
    by_cases hx : x.id = chat_id
    · have hb : (x.id == chat_id) = true := by simpa using hx
      rw [hb] at hd
      simp only [cond_true] at hd
      intro hdid
      exact hnd.1 (List.mem_map.mpr ⟨d, hd, by rw [hdid, hx]⟩)
    · have hb : (x.id == chat_id) = false := by simpa using hx
      rw [hb] at hd
      simp only [cond_false, List.mem_cons] at hd
      rcases hd with rfl | hd
      · exact hx
      · exact ih hnd.2 d hd

theorem length_eraseP_mem (l : List ChatData) (p : ChatData → Bool) (c : ChatData)
    (hc : c ∈ l) (hp : p c = true) :
    (l.eraseP p).length + 1 = l.length := by
  induction l with
  | nil => cases hc
  | cons x xs ih =>
    rw [List.eraseP_cons]
    by_cases hx : p x = true
    · rw [hx]
      simp
    · have hb : p x = false := by simpa using hx
      rw [hb]
      simp only [cond_false, List.length_cons]
      rcases List.mem_cons.mp hc with rfl | hc2
      · rw [hp] at hb
        cases hb
      · rw [ih hc2]

/-- C7: deleting a chat whose id is present removes that session from the
in-memory list, unlinks its backing file, and repoints the current-chat
pointer at the first remaining session (or `none`) when it referred to the
deleted session. -/
theorem delete_chat_spec (chats : Chats) (fs : Fs) (chat_id : Nat) (c : ChatData)
    (hmem : c ∈ chats.saved_chats) (hcid : c.id = chat_id)
    (hnd : (chats.saved_chats.map (fun d => d.id)).Nodup) :
    (∀ d ∈ (chats.delete_chat fs chat_id).1.saved_chats, d.id ≠ chat_id) ∧
    (chats.delete_chat fs chat_id).1.saved_chats.length + 1 = chats.saved_chats.length ∧
    assocLookup (chats.delete_chat fs chat_id).2 (toString chat_id ++ ".chat.json") = none ∧
    (chats.current_chat_id = some chat_id →
      (chats.delete_chat fs chat_id).1.current_chat_id =
        ((chats.delete_chat fs chat_id).1.saved_chats.head?.map (fun d => d.id))) ∧
    (chats.current_chat_id ≠ some chat_id →
      (chats.delete_chat fs chat_id).1.current_chat_id = chats.current_chat_id) := by
  have hsome : (chats.saved_chats.find? (fun d => d.id == chat_id)).isSome := by
    rw [List.find?_isSome]
    exact ⟨c, hmem, by simp [hcid]⟩
  obtain ⟨chat0, hfind⟩ := Option.isSome_iff_exists.mp hsome
  have hchat0 : chat0.id = chat_id := by
    have := List.find?_some hfind
    simpa using this
  have hmem0 : chat0 ∈ chats.saved_chats := List.mem_of_find?_eq_some hfind
  unfold Chats.delete_chat
  rw [hfind]
  dsimp only
  have hfname : chat0.file_name = toString chat_id ++ ".chat.json" := by
    unfold ChatData.file_name
    rw [hchat0]
  constructor
  · intro d hd
    have hd2 : d ∈ chats.saved_chats.eraseP (fun d => d.id == chat_id) := by
      by_cases hcc : (chats.current_chat_id == some chat_id) = true <;>
        simpa [hcc] using hd
    exact nodup_eraseP_not_mem _ _ hnd d hd2
  constructor
  · by_cases hcc : (chats.current_chat_id == some chat_id) = true <;>
      simp only [hcc, if_true, if_false, Bool.false_eq_true] <;>
      exact length_eraseP_mem _ _ chat0 hmem0 (by simp [hchat0])
  constructor
  · show assocLookup (chat0.delete_file fs) _ = none
    unfold ChatData.delete_file
    rw [← hfname]
    exact assocLookup_filter_ne fs chat0.file_name
  constructor
  · intro hcur
    have hcc : (chats.current_chat_id == some chat_id) = true := by simp [hcur]
    simp only [hcc, if_true]
  · intro hcur
    have hcc : (chats.current_chat_id == some chat_id) = false := by
      simpa using hcur
    simp only [hcc, Bool.false_eq_true, if_false]

/-- Witness for C7: deleting the current chat out of two sessions. -/
theorem delete_chat_spec_witness :
    (∀ d ∈ (Chats.delete_chat
        { saved_chats := [c7ChatA, c7ChatB], current_chat_id := some 1 }
        [(ChatData.file_name c7ChatA, ChatData.toStored c7ChatA)] 1).1.saved_chats,
      d.id ≠ 1) ∧
    (Chats.delete_chat
        { saved_chats := [c7ChatA, c7ChatB], current_chat_id := some 1 }
        [(ChatData.file_name c7ChatA, ChatData.toStored c7ChatA)] 1).1.saved_chats.length + 1 =
      ([c7ChatA, c7ChatB] : List ChatData).length ∧
    assocLookup (Chats.delete_chat
        { saved_chats := [c7ChatA, c7ChatB], current_chat_id := some 1 }
        [(ChatData.file_name c7ChatA, ChatData.toStored c7ChatA)] 1).2
      (toString 1 ++ ".chat.json") = none ∧
    (some 1 = some 1 →
      (Chats.delete_chat
          { saved_chats := [c7ChatA, c7ChatB], current_chat_id := some 1 }
          [(ChatData.file_name c7ChatA, ChatData.toStored c7ChatA)] 1).1.current_chat_id =
        ((Chats.delete_chat
            { saved_chats := [c7ChatA, c7ChatB], current_chat_id := some 1 }
            [(ChatData.file_name c7ChatA, ChatData.toStored c7ChatA)] 1).1.saved_chats.head?.map
          (fun d => d.id))) ∧
    ((some 1 : Option Nat) ≠ some 1 →
      (Chats.delete_chat
          { saved_chats := [c7ChatA, c7ChatB], current_chat_id := some 1 }
          [(ChatData.file_name c7ChatA, ChatData.toStored c7ChatA)] 1).1.current_chat_id =
        some 1) :=
  delete_chat_spec
    { saved_chats := [c7ChatA, c7ChatB], current_chat_id := some 1 }
    [(ChatData.file_name c7ChatA, ChatData.toStored c7ChatA)] 1 c7ChatA
    (by decide) (by decide) (by decide)

/-- C10: title derivation is not total.  On `c10Chat` the trimmed first user
message is 51 bytes long, the Rust code slices `&text[..50]`, and byte 50
falls inside a multi-byte character: `maybe_update_title_from_messages`
panics (modelled as `none`). -/
theorem title_truncation_panics :
    byteLen (rustTrim (String.mk (List.replicate 49 'a' ++ ['é'])).data) = 51 ∧
      c10Chat.maybe_update_title_from_messages = none := by
  constructor
  · decide
  · decide

theorem go_cons_failure {net : String → HttpResult} {parse : String → Option (List String)}
    {url : String} {msg : String} (rest : List String) (le : String)
    (hnet : net url = HttpResult.failure msg) :
    connectionTestGo net parse (url :: rest) le =
      ((connectionTestGo net parse rest msg).1,
        url :: (connectionTestGo net parse rest msg).2) := by
  simp only [connectionTestGo, hnet]

theorem go_cons_404 {net : String → HttpResult} {parse : String → Option (List String)}
    {url : String} {b : Option String} (rest : List String) (le : String)
    (hnet : net url = HttpResult.response 404 b) :
    connectionTestGo net parse (url :: rest) le =
      ((connectionTestGo net parse rest ("Endpoint not found: " ++ url)).1,
        url :: (connectionTestGo net parse rest ("Endpoint not found: " ++ url)).2) := by
  simp only [connectionTestGo, hnet]
  simp

theorem go_cons_err {net : String → HttpResult} {parse : String → Option (List String)}
    {url : String} {s : Nat} {b : Option String} (rest : List String) (le : String)
    (hnet : net url = HttpResult.response s b) (h404 : s ≠ 404)
    (h2xx : ¬(200 ≤ s ∧ s ≤ 299)) :
    connectionTestGo net parse (url :: rest) le =
      (Except.error (statusErrMsg s (b.getD "")), [url]) := by
  have hb : (s == 404) = false := by simpa using h404
  simp only [connectionTestGo, hnet]
  simp [hb, h2xx]

theorem go_cons_body_none {net : String → HttpResult} {parse : String → Option (List String)}
    {url : String} {s : Nat} (rest : List String) (le : String)
    (hnet : net url = HttpResult.response s none) (h404 : s ≠ 404)
    (h2xx : 200 ≤ s ∧ s ≤ 299) :
    connectionTestGo net parse (url :: rest) le =
      ((connectionTestGo net parse rest "Failed to read response").1,
        url :: (connectionTestGo net parse rest "Failed to read response").2) := by
  have hb : (s == 404) = false := by simpa using h404
  simp only [connectionTestGo, hnet]
  simp [hb, h2xx]

theorem go_cons_ok {net : String → HttpResult} {parse : String → Option (List String)}
    {url : String} {s : Nat} {b : String} (rest : List String) (le : String)
    (hnet : net url = HttpResult.response s (some b)) (h404 : s ≠ 404)
    (h2xx : 200 ≤ s ∧ s ≤ 299) :
    connectionTestGo net parse (url :: rest) le =
      (match parse b with
        | some models => (Except.ok (models.length, models), [url])
        | none => (Except.ok (0, []), [url])) := by
  have hb : (s == 404) = false := by simpa using h404
  simp only [connectionTestGo, hnet]
  simp [hb, h2xx]

theorem go_requests_nonempty (net : String → HttpResult)
    (parse : String → Option (List String)) (url : String) (rest : List String)
    (le : String) : (connectionTestGo net parse (url :: rest) le).2 ≠ [] := by
  rcases hnet : net url with msg | ⟨s, b⟩
  · rw [go_cons_failure rest le hnet]
    simp
  · by_cases h404 : s = 404
    · subst h404
      rw [go_cons_404 rest le hnet]
      simp
    · by_cases h2xx : 200 ≤ s ∧ s ≤ 299
      · rcases b with _ | bb
        · rw [go_cons_body_none rest le hnet h404 h2xx]
          simp
        · rw [go_cons_ok rest le hnet h404 h2xx]
          rcases parse bb with _ | models <;> simp
      · rw [go_cons_err rest le hnet h404 h2xx]
        simp

theorem go_reqs_prefix (net : String → HttpResult) (parse : String → Option (List String))
    (urls : List String) (le : String) :
    (connectionTestGo net parse urls le).2 <+: urls := by
  induction urls generalizing le with
  | nil => simp [connectionTestGo]
  | cons url rest ih =>
    rcases hnet : net url with msg | ⟨s, b⟩
    · rw [go_cons_failure rest le hnet]
      obtain ⟨t, ht⟩ := ih msg
      exact ⟨t, by rw [List.cons_append, ht]⟩
    · by_cases h404 : s = 404
      · subst h404
        rw [go_cons_404 rest le hnet]
        obtain ⟨t, ht⟩ := ih ("Endpoint not found: " ++ url)
        exact ⟨t, by rw [List.cons_append, ht]⟩
      · by_cases h2xx : 200 ≤ s ∧ s ≤ 299
        · rcases b with _ | bb
          · rw [go_cons_body_none rest le hnet h404 h2xx]
            obtain ⟨t, ht⟩ := ih "Failed to read response"
            exact ⟨t, by rw [List.cons_append, ht]⟩
          · rw [go_cons_ok rest le hnet h404 h2xx]
            rcases hp : parse bb with _ | models <;> exact ⟨rest, rfl⟩
        · rw [go_cons_err rest le hnet h404 h2xx]
          exact ⟨rest, rfl⟩

theorem go_404_advances (net : String → HttpResult) (parse : String → Option (List String))
    (urls : List String) :
    ∀ (le : String) (i : Nat) (s : Nat) (b : Option String),
      i < (connectionTestGo net parse urls le).2.length →
      net ((connectionTestGo net parse urls le).2.getD i "") = HttpResult.response s b →
      s = 404 → i + 1 < urls.length →
      i + 1 < (connectionTestGo net parse urls le).2.length := by
  induction urls with
  | nil =>
    intro le i s b hi
    simp [connectionTestGo] at hi
  | cons url rest ih =>
    intro le i s b hi hresp hs hlen
    rcases hnet : net url with msg | ⟨st, bd⟩
    · rw [go_cons_failure rest le hnet] at hi hresp ⊢
      cases i with
      | zero =>
        simp only [List.getD_cons_zero] at hresp
        rw [hnet] at hresp
        cases hresp
      | succ j =>
        simp only [List.getD_cons_succ] at hresp
        simp only [List.length_cons] at hi hlen ⊢
        have := ih msg j s b (by omega) hresp hs (by omega)
        omega
    · by_cases h404 : st = 404
      · subst h404
        rw [go_cons_404 rest le hnet] at hi hresp ⊢
        cases i with
        | zero =>
          have hne : rest ≠ [] := by
            intro h
            rw [h] at hlen
            simp at hlen
          rcases rest with _ | ⟨u2, r2⟩
          · exact absurd rfl hne
          have h0 : (connectionTestGo net parse (u2 :: r2) ("Endpoint not found: " ++ url)).2 ≠ [] :=
            go_requests_nonempty net parse u2 r2 _
          have h1 : 0 <
              (connectionTestGo net parse (u2 :: r2) ("Endpoint not found: " ++ url)).2.length :=
            List.length_pos.mpr h0
          simp only [List.length_cons]
          omega
        | succ j =>
          simp only [List.getD_cons_succ] at hresp
          simp only [List.length_cons] at hi hlen ⊢
          have := ih _ j s b (by omega) hresp hs (by omega)
          omega
      · by_cases h2xx : 200 ≤ st ∧ st ≤ 299
        · rcases bd with _ | bb
          · rw [go_cons_body_none rest le hnet h404 h2xx] at hi hresp ⊢
            cases i with
            | zero =>
              simp only [List.getD_cons_zero] at hresp
              rw [hnet] at hresp
              cases hresp
              exact absurd hs h404
            | succ j =>
              simp only [List.getD_cons_succ] at hresp
              simp only [List.length_cons] at hi hlen ⊢
              have := ih _ j s b (by omega) hresp hs (by omega)
              omega
          · rw [go_cons_ok rest le hnet h404 h2xx] at hi hresp ⊢
            rcases hp : parse bb with _ | models <;> rw [hp] at hi hresp <;>
              try dsimp only at hi hresp ⊢
            · cases i with
              | zero =>
                try simp only [List.getD_cons_zero] at hresp
                rw [hnet] at hresp
                cases hresp
                exact absurd hs h404
              | succ j =>
                simp only [List.length_cons, List.length_nil] at hi
                omega
            · cases i with
              | zero =>
                try simp only [List.getD_cons_zero] at hresp
                rw [hnet] at hresp
                cases hresp
                exact absurd hs h404
              | succ j =>
                simp only [List.length_cons, List.length_nil] at hi
                omega
        · rw [go_cons_err rest le hnet h404 h2xx] at hi hresp ⊢
          cases i with
          | zero =>
            simp only [List.getD_cons_zero] at hresp
            rw [hnet] at hresp
            cases hresp
            exact absurd hs h404
          | succ j =>
            simp at hi

theorem go_error_stops (net : String → HttpResult) (parse : String → Option (List String))
    (urls : List String) :
    ∀ (le : String) (i : Nat) (s : Nat) (b : Option String),
      i < (connectionTestGo net parse urls le).2.length →
      net ((connectionTestGo net parse urls le).2.getD i "") = HttpResult.response s b →
      ¬(200 ≤ s ∧ s ≤ 299) → s ≠ 404 →
      (connectionTestGo net parse urls le).2.length = i + 1 ∧
        (connectionTestGo net parse urls le).1 =
          Except.error (statusErrMsg s (b.getD "")) := by
  induction urls with
  | nil =>
    intro le i s b hi
    simp [connectionTestGo] at hi
  | cons url rest ih =>
    intro le i s b hi hresp h2xx h404
    rcases hnet : net url with msg | ⟨st, bd⟩
    · rw [go_cons_failure rest le hnet] at hi hresp ⊢
      cases i with
      | zero =>
        simp only [List.getD_cons_zero] at hresp
        rw [hnet] at hresp
        cases hresp
      | succ j =>
        simp only [List.getD_cons_succ] at hresp
        simp only [List.length_cons] at hi ⊢
        have := ih msg j s b (by omega) hresp h2xx h404
        exact ⟨by omega, this.2⟩
    · by_cases hst404 : st = 404
      · subst hst404
        rw [go_cons_404 rest le hnet] at hi hresp ⊢
        cases i with
        | zero =>
          simp only [List.getD_cons_zero] at hresp
          rw [hnet] at hresp
          cases hresp
          exact absurd rfl h404
        | succ j =>
          simp only [List.getD_cons_succ] at hresp
          simp only [List.length_cons] at hi ⊢
          have := ih _ j s b (by omega) hresp h2xx h404
          exact ⟨by omega, this.2⟩
      · by_cases hst2xx : 200 ≤ st ∧ st ≤ 299
        · rcases bd with _ | bb
          · rw [go_cons_body_none rest le hnet hst404 hst2xx] at hi hresp ⊢
            cases i with
            | zero =>
              simp only [List.getD_cons_zero] at hresp
              rw [hnet] at hresp
              cases hresp
              exact absurd hst2xx h2xx
            | succ j =>
              simp only [List.getD_cons_succ] at hresp
              simp only [List.length_cons] at hi ⊢
              have := ih _ j s b (by omega) hresp h2xx h404
              exact ⟨by omega, this.2⟩
          · rw [go_cons_ok rest le hnet hst404 hst2xx] at hi hresp ⊢
            rcases hp : parse bb with _ | models <;> rw [hp] at hi hresp <;>
              try dsimp only at hi hresp ⊢
            · cases i with
              | zero =>
                try simp only [List.getD_cons_zero] at hresp
                rw [hnet] at hresp
                cases hresp
                exact absurd hst2xx h2xx
              | succ j =>
                simp only [List.length_cons, List.length_nil] at hi
                omega
            · cases i with
              | zero =>
                try simp only [List.getD_cons_zero] at hresp
                rw [hnet] at hresp
                cases hresp
                exact absurd hst2xx h2xx
              | succ j =>
                simp only [List.length_cons, List.length_nil] at hi
                omega
        · rw [go_cons_err rest le hnet hst404 hst2xx] at hi hresp ⊢
          cases i with
          | zero =>
            simp only [List.getD_cons_zero] at hresp
            rw [hnet] at hresp
            cases hresp
            exact ⟨rfl, rfl⟩
          | succ j =>
            simp at hi

/-- C8: the connection test requests `base ++ "/models"`, then
`base ++ "/v1/models"`, then the (slash-trimmed) base URL, in that order (the
requested URLs form a prefix of that pattern list); a 404 response advances
to the next pattern; any other non-2xx response stops immediately with the
mapped error string, which is "Invalid API key" for 401, "Access denied" for
403, "Rate limited" for 429, and carries the raw status otherwise. -/
theorem connection_test_endpoint_order (net : String → HttpResult)
    (parse : String → Option (List String)) (base_url api_key : String) :
    (test_provider_connection net parse base_url api_key).2 <+:
      endpointsToTry (trimEndSlashes base_url) ∧
    (∀ (i s : Nat) (b : Option String),
      i < (test_provider_connection net parse base_url api_key).2.length →
      net ((test_provider_connection net parse base_url api_key).2.getD i "") =
        HttpResult.response s b →
      s = 404 → i + 1 < (endpointsToTry (trimEndSlashes base_url)).length →
      i + 1 < (test_provider_connection net parse base_url api_key).2.length) ∧
    (∀ (i s : Nat) (b : Option String),
      i < (test_provider_connection net parse base_url api_key).2.length →
      net ((test_provider_connection net parse base_url api_key).2.getD i "") =
        HttpResult.response s b →
      ¬(200 ≤ s ∧ s ≤ 299) → s ≠ 404 →
      (test_provider_connection net parse base_url api_key).2.length = i + 1 ∧
        (test_provider_connection net parse base_url api_key).1 =
          Except.error (statusErrMsg s (b.getD ""))) ∧
    (∀ body : String, statusErrMsg 401 body = "Invalid API key" ∧
      statusErrMsg 403 body = "Access denied" ∧ statusErrMsg 429 body = "Rate limited") := by
  refine ⟨?_, ?_, ?_, ?_⟩
  · exact go_reqs_prefix net parse _ _
  · intro i s b hi hresp hs hlen
    exact go_404_advances net parse _ _ i s b hi hresp hs hlen
  · intro i s b hi hresp h2xx h404
    exact go_error_stops net parse _ _ i s b hi hresp h2xx h404
  · intro body
    exact ⟨rfl, rfl, rfl⟩

/-- Witness for C8: against `c8Net` the test stops at the second pattern with
the 401 mapping. -/
theorem connection_test_endpoint_order_witness :
    (test_provider_connection c8Net c8Parse "https://api.example.com/" "key").2.length =
      1 + 1 ∧
    (test_provider_connection c8Net c8Parse "https://api.example.com/" "key").1 =
      Except.error (statusErrMsg 401 ((some "unauthorized").getD "")) :=
  (connection_test_endpoint_order c8Net c8Parse "https://api.example.com/" "key").2.2.1 1 401
    (some "unauthorized") (by decide) (by decide) (by decide) (by decide)

/-! ## C6: the resolver is flag-gated -/
/-- C6: once the `restored_saved_model` flag is set, a further call to the
Saved-Model Resolver is a pure no-op: it neither panics nor changes any part
of the application state (preferences, controller bot id / client, widget
state). -/
theorem restore_saved_model_idempotent (st : FullState)
    (h : st.app.restored_saved_model = true) :
    restore_saved_model st = some st := by
  unfold restore_saved_model
  rw [if_pos h]

/-- Witness for C6. -/
theorem restore_saved_model_idempotent_witness :
    restore_saved_model c6State = some c6State :=
  restore_saved_model_idempotent c6State rfl

/-! ## C3: resolution with no saved model -/
theorem switch_spec (bot_id : BotId) (st : FullState) (p : String)
    (howner : st.store.providers_manager.get_provider_for_bot bot_id = some p)
    (hclient : (st.store.providers_manager.clone_client p).isSome) :
    (switch_to_provider_for_bot bot_id st).app.current_provider_id = some p ∧
    (switch_to_provider_for_bot bot_id st).store.preferences = st.store.preferences ∧
    (switch_to_provider_for_bot bot_id st).app.restored_saved_model =
      st.app.restored_saved_model ∧
    (switch_to_provider_for_bot bot_id st).app.last_saved_bot_id =
      st.app.last_saved_bot_id := by
  unfold switch_to_provider_for_bot
  rw [howner]
  dsimp only
  by_cases hcur : st.app.current_provider_id ≠ some p
  · rw [if_pos hcur]
    obtain ⟨c, hc⟩ := Option.isSome_iff_exists.mp hclient
    rw [hc]
    exact ⟨rfl, rfl, rfl, rfl⟩
  · rw [if_neg hcur]
    push_neg at hcur
    exact ⟨hcur, rfl, rfl, rfl⟩

/-- C3 counterexample: with no saved model the resolver selects
`all_bots[0]` and sets the restored flag, but it does **not** write the new
selection string to the preference store: `current_chat_model` is still
`none` afterwards (the claimed persist does not happen; later calls of
`track_model_selection` see no change against `last_saved_bot_id` either). -/
theorem restore_no_persist_counterexample :
    (restore_saved_model c3State).map (fun s => s.controller.bot_id) =
      some (some demoBot.id) ∧
    (restore_saved_model c3State).map (fun s => s.store.preferences.current_chat_model) =
      some none ∧
    (restore_saved_model c3State).map (fun s => s.store.preferences.current_chat_model) ≠
      some (some (BotId.asStr demoBot.id)) := by
  refine ⟨by decide, by decide, ?_⟩
  decide

/-- C3 (amended): with no saved model and a non-empty combined bot list, the
resolver selects `all_bots[0]`, switches the active provider to that bot's
owner, records the selection in `last_saved_bot_id`, and sets the restored
flag - but leaves the preference store's `current_chat_model` untouched (it
is only written by a later selection change). -/
theorem restore_no_saved_model_selects_first
    (st : FullState) (b : Bot) (bs : List Bot) (p : String)
    (hres : st.app.restored_saved_model = false)
    (hsaved : st.store.preferences.current_chat_model = none)
    (hbots : st.store.providers_manager.all_bots = b :: bs)
    (howner : st.store.providers_manager.get_provider_for_bot b.id = some p)
    (hclient : (st.store.providers_manager.clone_client p).isSome) :
    ∃ st2, restore_saved_model st = some st2 ∧
      st2.controller.bot_id = some b.id ∧
      st2.app.current_provider_id = some p ∧
      st2.app.last_saved_bot_id = some (BotId.asStr b.id) ∧
      st2.app.restored_saved_model = true ∧
      st2.store.preferences.current_chat_model = none := by
  unfold restore_saved_model
  rw [if_neg (by simp [hres])]
  simp only [ProvidersManager.get_all_bots]
  rw [hsaved]
  rw [dif_neg (by simp [hbots])]
  have hhead : ∀ (hp : st.store.providers_manager.all_bots ≠ []),
      st.store.providers_manager.all_bots.head hp = b := by
    intro hp
    have h1 : st.store.providers_manager.all_bots.head? = some b := by
      rw [hbots]
      rfl
    have h2 := List.head?_eq_head hp
    exact Option.some_injective _ (h2.symm.trans h1)
  rw [hhead]
  obtain ⟨hcur, hpref, _, _⟩ := switch_spec b.id st p howner hclient
  refine ⟨_, rfl, rfl, ?_, rfl, rfl, ?_⟩
  · exact hcur
  · show (switch_to_provider_for_bot b.id st).store.preferences.current_chat_model = none
    rw [hpref, hsaved]

/-- Witness for the amended C3 at the concrete `c3State`. -/
theorem restore_no_saved_model_selects_first_witness :
    ∃ st2, restore_saved_model c3State = some st2 ∧
      st2.controller.bot_id = some demoBot.id ∧
      st2.app.current_provider_id = some "openai" ∧
      st2.app.last_saved_bot_id = some (BotId.asStr demoBot.id) ∧
      st2.app.restored_saved_model = true ∧
      st2.store.preferences.current_chat_model = none :=
  restore_no_saved_model_selects_first c3State demoBot [] "openai"
    rfl rfl rfl (by decide) (by decide)

/-- C2 counterexample: the claim's saved string `"5;gpt-4o@openai"` carries
the wrong length prefix (`gpt-4o` is 6 bytes, not 5), so
`parse_bot_id_string` yields `("gpt-4", "@openai")`; the fuzzy rule compares
the bot provider `"openai"` against `"@openai"` and never matches, and the
resolver falls back to `all_bots[0]` - it does **not** select the bot
`"13;models/gpt-4o@openai"` even though no exact match exists and that bot
is present. -/
theorem fuzzy_match_counterexample :
    parse_bot_id_string "5;gpt-4o@openai" = some ("gpt-4", "@openai") ∧
    BotId.asStr botGpt.id = "13;models/gpt-4o@openai" ∧
    (∀ b ∈ c2State.store.providers_manager.get_all_bots,
      BotId.asStr b.id ≠ "5;gpt-4o@openai") ∧
    (restore_saved_model c2State).map (fun s => s.controller.bot_id) =
      some (some botClaude.id) ∧
    botClaude.id ≠ botGpt.id := by
  refine ⟨by decide, by decide, by decide, by decide, by decide⟩

/-- C2 (amended): for the correctly length-prefixed saved string
`"6;gpt-4o@openai"`, absent exactly, with `"13;models/gpt-4o@openai"`
present, the resolver selects that bot via the `models/` prefix fuzzy rule
(same provider, bot model name = `"models/" ++ saved name`), and re-persists
the canonical resolved id string. -/
theorem fuzzy_match_amended :
    parse_bot_id_string "6;gpt-4o@openai" = some ("gpt-4o", "openai") ∧
    (∀ b ∈ c2GoodState.store.providers_manager.get_all_bots,
      BotId.asStr b.id ≠ "6;gpt-4o@openai") ∧
    (restore_saved_model c2GoodState).map (fun s => s.controller.bot_id) =
      some (some botGpt.id) ∧
    (restore_saved_model c2GoodState).map
        (fun s => s.store.preferences.current_chat_model) =
      some (some "13;models/gpt-4o@openai") := by
  refine ⟨by decide, by decide, by decide, by decide⟩

/-! ## C5: disabling every provider clears the models synchronously -/
theorem listSetEq_nil_right (a : List String) (ha : a ≠ []) : listSetEq a [] = false := by
  rcases a with _ | ⟨x, t⟩
  · exact absurd rfl ha
  · simp [listSetEq]

/-- C5: when the enabled-provider list is empty while providers had been
configured (and fetched) and no fetch is in flight, one
`maybe_configure_providers` pass synchronously clears the per-provider and
combined bot lists, empties the controller's bot list, sets its bot id to
`none`, clears the fetched-provider set, resets the `providers_configured`
and `restored_saved_model` flags - and emits only the `clearedAll` effect,
in particular no `started` effect (no fetch is spawned). -/
theorem empty_providers_clears (st : FullState)
    (hfip : st.app.fetch_in_progress = false)
    (hconf : st.app.providers_configured = true)
    (hfetched : st.app.fetched_provider_ids ≠ [])
    (hempty : st.store.preferences.get_enabled_providers = []) :
    maybe_configure_providers st =
      ({ st with
          store :=
            { st.store with providers_manager := st.store.providers_manager.clear_all_bots },
          controller := { st.controller with bots := [], bot_id := none },
          app := { st.app with
              fetched_provider_ids := [],
              providers_configured := false,
              restored_saved_model := false,
              last_saved_bot_id := none } },
        [FetchEffect.clearedAll]) := by
  unfold maybe_configure_providers
  rw [if_neg (by simp [hfip])]
  simp only [hempty, List.map_nil, listSetEq_nil_right _ hfetched, hconf,
    Bool.not_false, Bool.and_true, Bool.true_and, Bool.and_false, Bool.not_true,
    Bool.false_eq_true, if_false, List.isEmpty_nil, if_true]

/-- Witness for C5 at `c5State` (its single provider has just been
disabled). -/
theorem empty_providers_clears_witness :
    maybe_configure_providers c5State =
      ({ c5State with
          store :=
            { c5State.store with
                providers_manager := c5State.store.providers_manager.clear_all_bots },
          controller := { c5State.controller with bots := [], bot_id := none },
          app := { c5State.app with
              fetched_provider_ids := [],
              providers_configured := false,
              restored_saved_model := false,
              last_saved_bot_id := none } },
        [FetchEffect.clearedAll]) :=
  empty_providers_clears c5State rfl rfl (by decide) (by decide)

theorem chain_lt_le_last :
    ∀ (l : List Nat) (x : Nat), List.Chain' (· < ·) l → l.getLast? = some x →
      ∀ i ∈ l, i ≤ x := by
  intro l
  induction l with
  | nil =>
    intro x _ _ i hi
    simp at hi
  | cons a t ih =>
    intro x h hl i hi
    rcases t with _ | ⟨b, t2⟩
    · simp only [List.getLast?_singleton, Option.some.injEq] at hl
      subst hl
      simp at hi
      omega
    · rw [List.getLast?_cons_cons] at hl
      rw [List.chain'_cons] at h
      rcases List.mem_cons.mp hi with rfl | hi2
      · have hb : b ≤ x := ih x h.2 hl b (by simp)
        omega
      · exact ih x h.2 hl i hi2

theorem chain_append_singleton (l : List Nat) (j : Nat)
    (h : List.Chain' (· < ·) l) (hb : ∀ i ∈ l, i < j) :
    List.Chain' (· < ·) (l ++ [j]) := by
  rw [List.chain'_append]
  refine ⟨h, List.chain'_singleton j, ?_⟩
  intro x hx y hy
  simp only [List.head?_cons, Option.mem_def, Option.some.injEq] at hy
  subst hy
  apply hb
  obtain ⟨hne, rfl⟩ := List.mem_getLast?_eq_getLast (by simpa using hx)
  exact List.getLast_mem hne

theorem OrchInv_congr (st1 st2 : FullState)
    (hv : st2.app.visitedIdx = st1.app.visitedIdx)
    (ht : st2.app.providers_to_fetch = st1.app.providers_to_fetch)
    (hf : st2.app.fetch_in_progress = st1.app.fetch_in_progress)
    (hi : st2.app.fetch_index = st1.app.fetch_index)
    (h : OrchInv st1) : OrchInv st2 := by
  unfold OrchInv at h ⊢
  rw [hv, ht, hf, hi]
  exact h

theorem switch_fetch_fields (b : BotId) (st : FullState) :
    (switch_to_provider_for_bot b st).app.providers_to_fetch =
      st.app.providers_to_fetch ∧
    (switch_to_provider_for_bot b st).app.visitedIdx = st.app.visitedIdx ∧
    (switch_to_provider_for_bot b st).app.fetch_index = st.app.fetch_index ∧
    (switch_to_provider_for_bot b st).app.fetch_in_progress =
      st.app.fetch_in_progress := by
  unfold switch_to_provider_for_bot
  rcases hp : st.store.providers_manager.get_provider_for_bot b with _ | p
  · exact ⟨rfl, rfl, rfl, rfl⟩
  · dsimp only
    split
    · rcases hc : st.store.providers_manager.clone_client p with _ | c
      · exact ⟨rfl, rfl, rfl, rfl⟩
      · exact ⟨rfl, rfl, rfl, rfl⟩
    · exact ⟨rfl, rfl, rfl, rfl⟩

theorem restore_fetch_fields (st st2 : FullState)
    (h : restore_saved_model st = some st2) :
    st2.app.providers_to_fetch = st.app.providers_to_fetch ∧
    st2.app.visitedIdx = st.app.visitedIdx ∧
    st2.app.fetch_index = st.app.fetch_index ∧
    st2.app.fetch_in_progress = st.app.fetch_in_progress := by
  unfold restore_saved_model at h
  split at h
  · cases h
    exact ⟨rfl, rfl, rfl, rfl⟩
  · simp only at h
    split at h
    · cases h
      exact ⟨rfl, rfl, rfl, rfl⟩
    · rename_i hb
      rcases hsv : st.store.preferences.current_chat_model with _ | saved
      · rw [hsv] at h
        dsimp only at h
        cases h
        obtain ⟨h1, h2, h3, h4⟩ :=
          switch_fetch_fields (st.store.providers_manager.get_all_bots.head
            (by simpa [List.isEmpty_iff] using hb)).id st
        exact ⟨h1, h2, h3, h4⟩
      · rw [hsv] at h
        dsimp only at h
        split at h
        · cases h
        · rename_i parsed hparse
          split at h
          · rename_i bot hbot
            split at h
            · cases h
              obtain ⟨h1, h2, h3, h4⟩ := switch_fetch_fields bot.id st
              exact ⟨h1, h2, h3, h4⟩
            · cases h
              obtain ⟨h1, h2, h3, h4⟩ := switch_fetch_fields bot.id st
              exact ⟨h1, h2, h3, h4⟩
          · cases h
            obtain ⟨h1, h2, h3, h4⟩ :=
              switch_fetch_fields (st.store.providers_manager.get_all_bots.head
                (by simpa [List.isEmpty_iff] using hb)).id st
            exact ⟨h1, h2, h3, h4⟩

theorem track_fetch_fields (st : FullState) :
    (track_model_selection st).app.providers_to_fetch = st.app.providers_to_fetch ∧
    (track_model_selection st).app.visitedIdx = st.app.visitedIdx ∧
    (track_model_selection st).app.fetch_index = st.app.fetch_index ∧
    (track_model_selection st).app.fetch_in_progress = st.app.fetch_in_progress := by
  unfold track_model_selection
  split
  · exact ⟨rfl, rfl, rfl, rfl⟩
  · dsimp only
    split
    · rcases hb : st.controller.bot_id with _ | bid
      · dsimp only
        exact ⟨rfl, rfl, rfl, rfl⟩
      · dsimp only
        obtain ⟨h1, h2, h3, h4⟩ := switch_fetch_fields bid st
        exact ⟨h1, h2, h3, h4⟩
    · exact ⟨rfl, rfl, rfl, rfl⟩

theorem countStarts_nil : countStarts [] = 0 := rfl

theorem countStarts_append (a b : List FetchEffect) :
    countStarts (a ++ b) = countStarts a + countStarts b := by
  simp [countStarts, List.countP_append]

theorem countStarts_cons_started (j : Nat) (p : String) (l : List FetchEffect) :
    countStarts (FetchEffect.started j p :: l) = countStarts l + 1 := by
  simp [countStarts, List.countP_cons]

theorem countStarts_cons_skipped (j : Nat) (p : String) (l : List FetchEffect) :
    countStarts (FetchEffect.skipped j p :: l) = countStarts l := by
  simp [countStarts, List.countP_cons]

theorem countStarts_cons_completed (p : Option String) (l : List FetchEffect) :
    countStarts (FetchEffect.completed p :: l) = countStarts l := by
  simp [countStarts, List.countP_cons]

theorem countStarts_cons_configured (l : List FetchEffect) :
    countStarts (FetchEffect.configured :: l) = countStarts l := by
  simp [countStarts, List.countP_cons]

theorem countStarts_cons_clearedAll (l : List FetchEffect) :
    countStarts (FetchEffect.clearedAll :: l) = countStarts l := by
  simp [countStarts, List.countP_cons]

theorem countDoneSkip_append (a b : List FetchEffect) :
    countDoneSkip (a ++ b) = countDoneSkip a + countDoneSkip b := by
  simp [countDoneSkip, List.countP_append]

theorem countDoneSkip_cons_completed (p : Option String) (l : List FetchEffect) :
    countDoneSkip (FetchEffect.completed p :: l) = countDoneSkip l + 1 := by
  simp [countDoneSkip, List.countP_cons]

theorem countDoneSkip_cons_configured (l : List FetchEffect) :
    countDoneSkip (FetchEffect.configured :: l) = countDoneSkip l := by
  simp [countDoneSkip, List.countP_cons]

/-- Structure of one `start_fetch_for_provider` call: the provider list and
store are untouched, and either every candidate from `index` on was skipped
(the cycle ends with no fetch pending and no dispatch), or exactly one load
was dispatched, at the first index `j ≥ index` whose provider has a client,
appending `j` to the dispatch history. -/
theorem start_fetch_spec (st : FullState) : ∀ (index : Nat),
    (start_fetch_for_provider st index).1.app.providers_to_fetch =
      st.app.providers_to_fetch ∧
    (start_fetch_for_provider st index).1.store = st.store ∧
    (((start_fetch_for_provider st index).1.app =
        { st.app with fetch_in_progress := false } ∧
      (start_fetch_for_provider st index).1.controller = st.controller ∧
      countStarts (start_fetch_for_provider st index).2 = 0) ∨
      (∃ j p, index ≤ j ∧ j < st.app.providers_to_fetch.length ∧
        st.app.providers_to_fetch.get? j = some p ∧
        (start_fetch_for_provider st index).1.app =
          { st.app with
              current_provider_id := some p, fetch_index := j,
              fetch_in_progress := true, last_bots_count := 0,
              visitedIdx := st.app.visitedIdx ++ [j] } ∧
        (start_fetch_for_provider st index).1.controller.bots = [] ∧
        countStarts (start_fetch_for_provider st index).2 = 1 ∧
        (∀ q r, FetchEffect.started q r ∈ (start_fetch_for_provider st index).2 →
          q = j ∧ r = p))) := by
  suffices H : ∀ (n index : Nat), st.app.providers_to_fetch.length - index ≤ n →
      (start_fetch_for_provider st index).1.app.providers_to_fetch =
        st.app.providers_to_fetch ∧
      (start_fetch_for_provider st index).1.store = st.store ∧
      (((start_fetch_for_provider st index).1.app =
          { st.app with fetch_in_progress := false } ∧
        (start_fetch_for_provider st index).1.controller = st.controller ∧
        countStarts (start_fetch_for_provider st index).2 = 0) ∨
        (∃ j p, index ≤ j ∧ j < st.app.providers_to_fetch.length ∧
          st.app.providers_to_fetch.get? j = some p ∧
          (start_fetch_for_provider st index).1.app =
            { st.app with
                current_provider_id := some p, fetch_index := j,
                fetch_in_progress := true, last_bots_count := 0,
                visitedIdx := st.app.visitedIdx ++ [j] } ∧
          (start_fetch_for_provider st index).1.controller.bots = [] ∧
          countStarts (start_fetch_for_provider st index).2 = 1 ∧
          (∀ q r, FetchEffect.started q r ∈ (start_fetch_for_provider st index).2 →
            q = j ∧ r = p))) by
    intro index
    exact H (st.app.providers_to_fetch.length - index) index le_rfl
  intro n
  induction n with
  | zero =>
    intro index hn
    have hend : st.app.providers_to_fetch.length ≤ index := by omega
    rw [start_fetch_for_provider, dif_pos hend]
    exact ⟨rfl, rfl, Or.inl ⟨rfl, rfl, rfl⟩⟩
  | succ n ih =>
    intro index hn
    by_cases hend : st.app.providers_to_fetch.length ≤ index
    · rw [start_fetch_for_provider, dif_pos hend]
      exact ⟨rfl, rfl, Or.inl ⟨rfl, rfl, rfl⟩⟩
    · rw [start_fetch_for_provider, dif_neg hend]
      dsimp only
      rcases hc : st.store.providers_manager.clone_client
          (st.app.providers_to_fetch.get ⟨index, by omega⟩) with _ | client
      · obtain ⟨ih1, ih2, ih3⟩ := ih (index + 1) (by omega)
        refine ⟨ih1, ih2, ?_⟩
        rcases ih3 with ⟨ha, hctrl, hcnt⟩ | ⟨j, p, hj1, hj2, hj3, ha, hb2, hcnt, hmem⟩
        · exact Or.inl ⟨ha, hctrl, by rw [countStarts_cons_skipped, hcnt]⟩
        · refine Or.inr ⟨j, p, by omega, hj2, hj3, ha, hb2,
            by rw [countStarts_cons_skipped, hcnt], ?_⟩
          intro q r hm
          rcases List.mem_cons.mp hm with hm | hm
          · cases hm
          · exact hmem q r hm
      · refine ⟨rfl, rfl, Or.inr ⟨index, _, le_rfl, by omega,
          List.get?_eq_get (by omega), rfl, rfl, rfl, ?_⟩⟩
        intro q r hm
        simpa using hm

/-- Branch structure of `maybe_configure_providers`: a no-op, the
synchronous clear on an empty enabled set, or a (re)configuration that
resets the dispatch history and optionally starts the first fetch. -/
theorem configure_spec (st : FullState) :
    maybe_configure_providers st = (st, []) ∨
    (st.app.fetch_in_progress = false ∧
      (maybe_configure_providers st).2 = [FetchEffect.clearedAll] ∧
      (maybe_configure_providers st).1.app.fetch_in_progress = false ∧
      (maybe_configure_providers st).1.app.providers_to_fetch =
        st.app.providers_to_fetch ∧
      (maybe_configure_providers st).1.app.visitedIdx = st.app.visitedIdx ∧
      (maybe_configure_providers st).1.app.fetch_index = st.app.fetch_index) ∨
    (st.app.fetch_in_progress = false ∧
      ∃ stMid, stMid.app.visitedIdx = [] ∧ stMid.app.fetch_in_progress = false ∧
        (maybe_configure_providers st = (stMid, [FetchEffect.configured]) ∨
          maybe_configure_providers st =
            ((start_fetch_for_provider stMid 0).1,
              FetchEffect.configured :: (start_fetch_for_provider stMid 0).2))) := by
  unfold maybe_configure_providers
  split
  · exact Or.inl rfl
  · rename_i hfip
    have hfip2 : st.app.fetch_in_progress = false := by simpa using hfip
    dsimp only
    split
    · exact Or.inl rfl
    · split
      · split
        · exact Or.inr (Or.inl ⟨hfip2, rfl, hfip2, rfl, rfl, rfl⟩)
        · exact Or.inl rfl
      · refine Or.inr (Or.inr ⟨hfip2, ?_⟩)
        split
        · refine ⟨_, rfl, ?_, Or.inl rfl⟩
          show (if _ = true then _ else st).app.fetch_in_progress = false
          split <;> exact hfip2
        · refine ⟨_, rfl, ?_, Or.inr rfl⟩
          show (if _ = true then _ else st).app.fetch_in_progress = false
          split <;> exact hfip2

/-- Branch structure of `check_for_loaded_bots`: a no-op (no fetch pending,
or no observable growth), a propagated panic, or an observed completion
followed by either the next dispatch or the final merge-and-restore. -/
theorem check_spec (st : FullState) :
    check_for_loaded_bots st = some (st, []) ∨
    check_for_loaded_bots st = none ∨
    (st.app.fetch_in_progress = true ∧
      ((∃ stc cpv,
          check_for_loaded_bots st =
            some ((start_fetch_for_provider stc (stc.app.fetch_index + 1)).1,
              FetchEffect.completed cpv ::
                (start_fetch_for_provider stc (stc.app.fetch_index + 1)).2) ∧
          stc.app.providers_to_fetch = st.app.providers_to_fetch ∧
          stc.app.visitedIdx = st.app.visitedIdx ∧
          stc.app.fetch_index = st.app.fetch_index ∧
          stc.app.fetch_in_progress = true) ∨
        (∃ stf cpv,
          check_for_loaded_bots st = some (stf, [FetchEffect.completed cpv]) ∧
          stf.app.fetch_in_progress = false ∧
          stf.app.providers_to_fetch = st.app.providers_to_fetch ∧
          stf.app.visitedIdx = st.app.visitedIdx))) := by
  unfold check_for_loaded_bots
  split
  · exact Or.inl rfl
  · rename_i hf
    have hfip : st.app.fetch_in_progress = true := by simpa using hf
    dsimp only
    split
    · exact Or.inl rfl
    · rcases hcp : st.app.current_provider_id with _ | cp
      all_goals dsimp only
      · split
        · exact Or.inr (Or.inr ⟨hfip, Or.inl ⟨_, _, rfl, rfl, rfl, rfl, hfip⟩⟩)
        · rcases hr : restore_saved_model _ with _ | str
          · exact Or.inr (Or.inl rfl)
          · obtain ⟨r1, r2, r3, r4⟩ := restore_fetch_fields _ _ hr
            exact Or.inr (Or.inr ⟨hfip, Or.inr ⟨_, _, rfl, r4, r1, r2⟩⟩)
      · split
        · split
          · exact Or.inr (Or.inr ⟨hfip, Or.inl ⟨_, _, rfl, rfl, rfl, rfl, hfip⟩⟩)
          · rcases hr : restore_saved_model _ with _ | str
            · exact Or.inr (Or.inl rfl)
            · obtain ⟨r1, r2, r3, r4⟩ := restore_fetch_fields _ _ hr
              exact Or.inr (Or.inr ⟨hfip, Or.inr ⟨_, _, rfl, r4, r1, r2⟩⟩)
        · split
          · exact Or.inr (Or.inr ⟨hfip, Or.inl ⟨_, _, rfl, rfl, rfl, rfl, hfip⟩⟩)
          · rcases hr : restore_saved_model _ with _ | str
            · exact Or.inr (Or.inl rfl)
            · obtain ⟨r1, r2, r3, r4⟩ := restore_fetch_fields _ _ hr
              exact Or.inr (Or.inr ⟨hfip, Or.inr ⟨_, _, rfl, r4, r1, r2⟩⟩)

theorem check_noop_of_not_fip (st : FullState)
    (h : st.app.fetch_in_progress = false) :
    check_for_loaded_bots st = some (st, []) := by
  unfold check_for_loaded_bots
  rw [if_pos (by simp [h])]

theorem check_noop_of_bots_empty (st : FullState) (h : st.controller.bots = []) :
    check_for_loaded_bots st = some (st, []) := by
  unfold check_for_loaded_bots
  split
  · rfl
  · rw [if_pos (by simp [h])]

theorem countStarts_eq_zero_no_started (l : List FetchEffect) (h : countStarts l = 0)
    (j : Nat) (p : String) : FetchEffect.started j p ∉ l := by
  intro hm
  have hcontr := List.countP_eq_zero.mp h _ hm
  simp at hcontr

/-- C1: one event-handling pass of the orchestrator preserves the
sequential-visit invariant (`OrchInv`: the dispatch history of the current
cycle is strictly increasing over in-range `providers_to_fetch` indices,
ending at `fetch_index` while a fetch is pending), keeps the fetch-start
count bounded by the complete-or-skip count plus the single pending fetch
(`countStarts effs + inflight st ≤ countDoneSkip effs + inflight st2`, which
telescopes over any trace to "starts never exceed completes-plus-skips by
more than one" since `inflight` is 0 or 1), and dispatches only providers at
their own position of `providers_to_fetch` - regardless of what the
background fetch thread wrote into the controller's bot list. -/
theorem fetch_orchestrator_sequential (st st2 : FullState) (bots : List Bot)
    (effs : List FetchEffect)
    (hinv : OrchInv st)
    (htick : tick (injectBots bots st) = some (st2, effs)) :
    OrchInv st2 ∧
    countStarts effs + inflight st ≤ countDoneSkip effs + inflight st2 ∧
    (∀ j p, FetchEffect.started j p ∈ effs →
      st2.app.providers_to_fetch.get? j = some p) := by
  unfold tick at htick
  simp only at htick
  rcases configure_spec (injectBots bots st) with hcfg |
    ⟨hfip0, hce, hcf, hct, hcv, hci⟩ | ⟨hfip0, stMid, hmv, hmf, hcase⟩
  · -- configure no-op
    rw [hcfg] at htick
    dsimp only at htick
    rcases check_spec (injectBots bots st) with hchk | hchk |
      ⟨hfipT, ⟨stc, cpv, heq, hc1, hc2, hc3, hc4⟩ | ⟨stf, cpv, heq, hf1, hf2, hf3⟩⟩
    · rw [hchk] at htick
      dsimp only at htick
      simp only [Option.some.injEq, Prod.mk.injEq] at htick
      obtain ⟨h2, h3⟩ := htick
      subst h2
      subst h3
      obtain ⟨t1, t2, t3, t4⟩ := track_fetch_fields (injectBots bots st)
      have hinf : inflight (track_model_selection (injectBots bots st)) = inflight st := by
        unfold inflight
        rw [t4]
        rfl
      refine ⟨?_, ?_, ?_⟩
      · exact OrchInv_congr st _ t2 t1 t4 t3 hinv
      · rw [hinf]
        exact Nat.le_refl _
      · intro j p hm
        simp [countStarts_nil] at hm
    · rw [hchk] at htick
      dsimp only at htick
      cases htick
    · -- advance to the next provider
      rw [heq] at htick
      dsimp only at htick
      simp only [Option.some.injEq, Prod.mk.injEq] at htick
      obtain ⟨h2, h3⟩ := htick
      subst h2
      have heffs : effs = FetchEffect.completed cpv ::
          (start_fetch_for_provider stc (stc.app.fetch_index + 1)).2 := by
        rw [← h3]
        simp
      subst heffs
      rw [show (injectBots bots st).app = st.app from rfl] at hc1 hc2 hc3
      obtain ⟨s1, s2, s3⟩ := start_fetch_spec stc (stc.app.fetch_index + 1)
      obtain ⟨t1, t2, t3, t4⟩ :=
        track_fetch_fields (start_fetch_for_provider stc (stc.app.fetch_index + 1)).1
      have hfipSt : st.app.fetch_in_progress = true := hfipT
      have hlast := hinv.2.2 hfipSt
      have hinfSt : inflight st = 1 := by
        unfold inflight
        rw [hfipSt]
        rfl
      rcases s3 with ⟨sa, sctrl, scnt⟩ | ⟨j, p, hj1, hj2, hj3, sa, sb, scnt, smem⟩
      · have hv2 : (track_model_selection
            (start_fetch_for_provider stc (stc.app.fetch_index + 1)).1).app.visitedIdx =
            st.app.visitedIdx := by
          rw [t2, sa]
          exact hc2
        have ht2 : (track_model_selection
            (start_fetch_for_provider stc (stc.app.fetch_index + 1)).1).app.providers_to_fetch =
            st.app.providers_to_fetch := by
          rw [t1, s1]
          exact hc1
        have hfp2 : (track_model_selection
            (start_fetch_for_provider stc (stc.app.fetch_index + 1)).1).app.fetch_in_progress =
            false := by
          rw [t4, sa]
        refine ⟨⟨?_, ?_, ?_⟩, ?_, ?_⟩
        · rw [hv2]
          exact hinv.1
        · intro i hi
          rw [ht2]
          exact hinv.2.1 i (by rw [hv2] at hi; exact hi)
        · intro hcontr
          rw [hfp2] at hcontr
          cases hcontr
        · rw [countStarts_cons_completed, countDoneSkip_cons_completed, scnt, hinfSt]
          omega
        · intro j p hm
          rcases List.mem_cons.mp hm with hm | hm
          · cases hm
          · exact absurd hm (countStarts_eq_zero_no_started _ scnt j p)
      · have hv2 : (track_model_selection
            (start_fetch_for_provider stc (stc.app.fetch_index + 1)).1).app.visitedIdx =
            st.app.visitedIdx ++ [j] := by
          rw [t2, sa]
          dsimp only
          rw [hc2]
        have ht2 : (track_model_selection
            (start_fetch_for_provider stc (stc.app.fetch_index + 1)).1).app.providers_to_fetch =
            st.app.providers_to_fetch := by
          rw [t1, s1]
          exact hc1
        have hfp2 : (track_model_selection
            (start_fetch_for_provider stc (stc.app.fetch_index + 1)).1).app.fetch_in_progress =
            true := by
          rw [t4, sa]
        have hfx2 : (track_model_selection
            (start_fetch_for_provider stc (stc.app.fetch_index + 1)).1).app.fetch_index = j := by
          rw [t3, sa]
        have hjgt : ∀ i ∈ st.app.visitedIdx, i < j := by
          intro i hi
          have hle := chain_lt_le_last st.app.visitedIdx st.app.fetch_index hinv.1 hlast i hi
          have : stc.app.fetch_index + 1 ≤ j := hj1
          rw [hc3] at this
          omega
        refine ⟨⟨?_, ?_, ?_⟩, ?_, ?_⟩
        · rw [hv2]
          exact chain_append_singleton _ j hinv.1 hjgt
        · intro i hi
          rw [hv2] at hi
          rw [ht2]
          rcases List.mem_append.mp hi with hi | hi
          · exact hinv.2.1 i hi
          · have : i = j := by simpa using hi
            subst this
            rw [← hc1]
            exact hj2
        · intro _
          rw [hv2, hfx2, List.getLast?_concat]
        · have hinf2 : inflight (track_model_selection
              (start_fetch_for_provider stc (stc.app.fetch_index + 1)).1) = 1 := by
            unfold inflight
            rw [hfp2]
            rfl
          rw [countStarts_cons_completed, countDoneSkip_cons_completed, scnt, hinfSt, hinf2]
          omega
        · intro q r hm
          rcases List.mem_cons.mp hm with hm | hm
          · cases hm
          · obtain ⟨rfl, rfl⟩ := smem q r hm
            rw [ht2, ← hc1]
            exact hj3
    · -- all providers fetched: merge and restore
      rw [heq] at htick
      dsimp only at htick
      simp only [Option.some.injEq, Prod.mk.injEq] at htick
      obtain ⟨h2, h3⟩ := htick
      subst h2
      have heffs : effs = [FetchEffect.completed cpv] := by
        rw [← h3]
        simp
      subst heffs
      obtain ⟨t1, t2, t3, t4⟩ := track_fetch_fields stf
      have hfipSt : st.app.fetch_in_progress = true := hfipT
      have hinfSt : inflight st = 1 := by
        unfold inflight
        rw [hfipSt]
        rfl
      refine ⟨⟨?_, ?_, ?_⟩, ?_, ?_⟩
      · rw [t2, hf3]
        exact hinv.1
      · intro i hi
        rw [t1, hf2]
        exact hinv.2.1 i (by rw [t2, hf3] at hi; exact hi)
      · intro hcontr
        rw [t4, hf1] at hcontr
        cases hcontr
      · rw [countStarts_cons_completed, countStarts_nil, countDoneSkip_cons_completed,
          hinfSt]
        omega
      · intro j p hm
        rcases List.mem_cons.mp hm with hm | hm
        · cases hm
        · simp at hm
  · -- synchronous clear on empty enabled set
    have hchk := check_noop_of_not_fip (maybe_configure_providers (injectBots bots st)).1 hcf
    rw [hchk] at htick
    dsimp only at htick
    simp only [Option.some.injEq, Prod.mk.injEq] at htick
    obtain ⟨h2, h3⟩ := htick
    subst h2
    have heffs : effs = [FetchEffect.clearedAll] := by
      rw [← h3, hce]
      simp
    subst heffs
    obtain ⟨t1, t2, t3, t4⟩ :=
      track_fetch_fields (maybe_configure_providers (injectBots bots st)).1
    have hfipSt : st.app.fetch_in_progress = false := hfip0
    refine ⟨⟨?_, ?_, ?_⟩, ?_, ?_⟩
    · rw [t2, hcv]
      exact hinv.1
    · intro i hi
      rw [t1, hct]
      exact hinv.2.1 i (by rw [t2, hcv] at hi; exact hi)
    · intro hcontr
      rw [t4, hcf] at hcontr
      cases hcontr
    · rw [countStarts_cons_clearedAll, countStarts_nil]
      unfold inflight
      rw [hfipSt]
      simp
    · intro j p hm
      simp at hm
  · -- (re)configuration
    rcases hcase with hcfg | hcfg
    · rw [hcfg] at htick
      rw [check_noop_of_not_fip stMid hmf] at htick
      dsimp only at htick
      simp only [Option.some.injEq, Prod.mk.injEq] at htick
      obtain ⟨h2, h3⟩ := htick
      subst h2
      have heffs : effs = [FetchEffect.configured] := by
        rw [← h3]
        simp
      subst heffs
      obtain ⟨t1, t2, t3, t4⟩ := track_fetch_fields stMid
      refine ⟨⟨?_, ?_, ?_⟩, ?_, ?_⟩
      · rw [t2, hmv]
        exact List.chain'_nil
      · intro i hi
        rw [t2, hmv] at hi
        simp at hi
      · intro hcontr
        rw [t4, hmf] at hcontr
        cases hcontr
      · rw [countStarts_cons_configured, countStarts_nil]
        have hfipSt : st.app.fetch_in_progress = false := hfip0
        unfold inflight
        rw [hfipSt]
        simp
      · intro j p hm
        simp at hm
    · rw [hcfg] at htick
      obtain ⟨s1, s2, s3⟩ := start_fetch_spec stMid 0
      rcases s3 with ⟨sa, sctrl, scnt⟩ | ⟨j, p, hj1, hj2, hj3, sa, sb, scnt, smem⟩
      · have hfipS : (start_fetch_for_provider stMid 0).1.app.fetch_in_progress = false := by
          rw [sa]
        rw [check_noop_of_not_fip _ hfipS] at htick
        dsimp only at htick
        simp only [Option.some.injEq, Prod.mk.injEq] at htick
        obtain ⟨h2, h3⟩ := htick
        subst h2
        have heffs : effs = FetchEffect.configured :: (start_fetch_for_provider stMid 0).2 := by
          rw [← h3]
          simp
        subst heffs
        obtain ⟨t1, t2, t3, t4⟩ :=
          track_fetch_fields (start_fetch_for_provider stMid 0).1
        refine ⟨⟨?_, ?_, ?_⟩, ?_, ?_⟩
        · rw [t2, sa]
          dsimp only
          rw [hmv]
          exact List.chain'_nil
        · intro i hi
          rw [t2, sa] at hi
          dsimp only at hi
          rw [hmv] at hi
          simp at hi
        · intro hcontr
          rw [t4, hfipS] at hcontr
          cases hcontr
        · rw [countStarts_cons_configured, scnt]
          have hfipSt : st.app.fetch_in_progress = false := hfip0
          unfold inflight
          rw [hfipSt]
          simp
        · intro q r hm
          rcases List.mem_cons.mp hm with hm | hm
          · cases hm
          · exact absurd hm (countStarts_eq_zero_no_started _ scnt q r)
      · rw [check_noop_of_bots_empty _ sb] at htick
        dsimp only at htick
        simp only [Option.some.injEq, Prod.mk.injEq] at htick
        obtain ⟨h2, h3⟩ := htick
        subst h2
        have heffs : effs = FetchEffect.configured :: (start_fetch_for_provider stMid 0).2 := by
          rw [← h3]
          simp
        subst heffs
        obtain ⟨t1, t2, t3, t4⟩ :=
          track_fetch_fields (start_fetch_for_provider stMid 0).1
        have hv2 : (track_model_selection
            (start_fetch_for_provider stMid 0).1).app.visitedIdx = [j] := by
          rw [t2, sa]
          dsimp only
          rw [hmv]
          rfl
        have ht2 : (track_model_selection
            (start_fetch_for_provider stMid 0).1).app.providers_to_fetch =
            stMid.app.providers_to_fetch := by
          rw [t1, s1]
        have hfp2 : (track_model_selection
            (start_fetch_for_provider stMid 0).1).app.fetch_in_progress = true := by
          rw [t4, sa]
        have hfx2 : (track_model_selection
            (start_fetch_for_provider stMid 0).1).app.fetch_index = j := by
          rw [t3, sa]
        refine ⟨⟨?_, ?_, ?_⟩, ?_, ?_⟩
        · rw [hv2]
          exact List.chain'_singleton j
        · intro i hi
          rw [hv2] at hi
          have : i = j := by simpa using hi
          subst this
          rw [ht2]
          exact hj2
        · intro _
          rw [hv2, hfx2]
          rfl
        · rw [countStarts_cons_configured, scnt]
          have hfipSt : st.app.fetch_in_progress = false := hfip0
          unfold inflight
          rw [hfipSt, hfp2]
          simp
        · intro q r hm
          rcases List.mem_cons.mp hm with hm | hm
          · cases hm
          · obtain ⟨rfl, rfl⟩ := smem q r hm
            rw [ht2]
            exact hj3

/-- Witness for C1 at `c1State` (an idle tick). -/
theorem fetch_orchestrator_sequential_witness :
    OrchInv (injectBots [] c1State) ∧
    countStarts [] + inflight c1State ≤ countDoneSkip [] + inflight (injectBots [] c1State) ∧
    (∀ j p, FetchEffect.started j p ∈ ([] : List FetchEffect) →
      (injectBots [] c1State).app.providers_to_fetch.get? j = some p) :=
  fetch_orchestrator_sequential c1State (injectBots [] c1State) [] []
    ⟨List.chain'_nil, by intro i hi; simp [c1State] at hi, by intro h; simp [c1State] at h⟩
    (by decide)

end Moly
